import Mathlib

/-!
# Sprites: page-packed sprite blitter

A shallow embedding of `src/Arduboy2/Sprites.cpp` (`Sprites::draw`,
`Sprites::drawBitmap` and the five public entry points) and theorems about it.

Conventions of the embedding

* Memory reached through a pointer is a function `Nat → Nat` from the byte index
  (relative to the pointer) to the stored value.  `Arduboy2Base::sBuffer` is such a
  memory; the framebuffer proper is its first `WIDTH * HEIGHT / 8` cells.  A store at an
  index past the framebuffer is kept as a store to that cell, so that it stays visible.
* `int16_t` coordinates are `Int`; `uint8_t` values are `Nat`.  Every narrowing
  conversion of the source is written out (`toU8`, `toU16`, `toI8`).  `int` is taken to
  be 32 bits wide (the target of this port), so `int` arithmetic on 16-bit operands does
  not wrap.
* A nullable pointer is an `Option`.
-/

namespace Sprites

/-! ## Machine integers and memory -/

/-- Byte-addressed memory seen through a pointer: index ↦ stored value. -/
abbrev Mem := Nat → Nat

/-- Store `v` at index `i`. -/
def write (m : Mem) (i v : Nat) : Mem := fun k => if k = i then v else m k

/-- Pointer arithmetic `p + n`. -/
def advance (p : Mem) (n : Nat) : Mem := fun i => p (n + i)

/-- Read one byte of program memory: `pgm_read_byte(p + i)`. -/
def pgm_read_byte (p : Mem) (i : Nat) : Nat := p i % 256

/-- Conversion to `uint8_t`. -/
def toU8 (i : Int) : Nat := (i % 256).toNat

/-- Conversion to `uint16_t`. -/
def toU16 (i : Int) : Nat := (i % 65536).toNat

/-- Conversion to `int8_t` (two's complement wrap). -/
def toI8 (i : Int) : Int := (i + 128) % 256 - 128

/-- Second byte of a little-endian `uint16_t`:
`reinterpret_cast<const unsigned char *>(&v)[1]`. -/
def highByte (v : Nat) : Nat := v / 256 % 256

/-- Low byte of a `uint16_t`: `static_cast<uint8_t>(v)`. -/
def lowByte (v : Nat) : Nat := v % 256

/-- Bitwise complement of a non-negative `int`, converted to `uint16_t`
(`~v = -v - 1` in two's complement). -/
def not16 (v : Nat) : Nat := toU16 (-(v : Int) - 1)

/-- Bitwise complement of a byte, restricted to the byte: `d & ~b` for bytes `d`, `b`
is `d &&& not8 b`. -/
def not8 (b : Nat) : Nat := 255 - b % 256

/-! ## Constants of the headers -/

/-- Modelled from the spec: the screen width `WIDTH` of the framebuffer collaborator
(its header is not part of the sources), at the value of the spec's scenario. -/
def WIDTH : Nat := 128

/-- Modelled from the spec: the screen height `HEIGHT` of the framebuffer collaborator
(its header is not part of the sources), at the value of the spec's scenario. -/
def HEIGHT : Nat := 64

/-- Modelled from the spec: the closed enumeration of draw modes of `Sprites.h` (the
header is not part of the sources).  `SPRITE_MASKED` is ExternalMask, `SPRITE_UNMASKED`
is Unmasked, `SPRITE_PLUS_MASK` is InterleavedMaskPlusColor, `SPRITE_IS_MASK` is SelfMask,
`SPRITE_IS_MASK_ERASE` is SelfMaskErase and `SPRITE_AUTO_MODE` is AutoDetect. -/
inductive DrawMode where
  | SPRITE_MASKED
  | SPRITE_UNMASKED
  | SPRITE_PLUS_MASK
  | SPRITE_IS_MASK
  | SPRITE_IS_MASK_ERASE
  | SPRITE_AUTO_MODE
  deriving DecidableEq, Repr

open DrawMode

/-- Modelled from the spec: `SPRITE_OVERWRITE`, the mode `drawOverwrite` passes, is the
Unmasked mode. -/
def SPRITE_OVERWRITE : DrawMode := SPRITE_UNMASKED

/-! ## Clipping and alignment (`drawBitmap`, lines 79-109) -/

/-- The value `xOffset = (x < 0) ? std::abs(x) : 0`, a `uint16_t` (line 82). -/
def xOffsetOf (x : Int) : Nat := toU16 (if x < 0 then (Int.natAbs x : Int) else 0)

/-- The value `rendered_width`, a `uint8_t` (line 85). -/
def renderedWidthOf (x : Int) (w : Nat) : Nat :=
  toU8 (if x + w > (WIDTH : Int) - 1 then ((WIDTH : Int) - x) - xOffsetOf x
        else (w : Int) - xOffsetOf x)

/-- The value `yOffset = (y & 7)`, an `int8_t` (line 87); the low three bits of a two's
complement value are its remainder modulo 8 in `[0, 7]`. -/
def yOffsetOf (y : Int) : Int := toI8 (y % 8)

/-- The value `tempSRow = (y / 8)`, an `int8_t` (line 88); C++ division truncates toward
zero. -/
def tempSRowOf (y : Int) : Int := toI8 (Int.tdiv y 8)

/-- The variable `sRow` as first initialised (line 89). -/
def sRowInit (y : Int) : Int :=
  toI8 (if y < 0 ∧ yOffsetOf y > 0 then tempSRowOf y - 1 else tempSRowOf y)

/-- The value `start_h = (sRow < -1) ? (std::abs(sRow) - 1) : 0`, a `uint8_t` (line 92). -/
def startHOf (y : Int) : Nat :=
  toU8 (if sRowInit y < -1 then (Int.natAbs (sRowInit y) : Int) - 1 else 0)

/-- The value `rows = h / 8`, a `uint8_t` (line 95). -/
def rowsOf (h : Nat) : Nat := toU8 ((h / 8 : Nat) : Int)

/-- The variable `loop_h` as first initialised (line 96): divide, then round up. -/
def loopHInit (h : Nat) : Nat :=
  toU8 (if h % 8 > 0 then (rowsOf h : Int) + 1 else rowsOf h)

/-- The variable `loop_h` after the bottom clip (lines 99-100). -/
def loopHClipped (y : Int) (h : Nat) : Nat :=
  if sRowInit y + loopHInit h > ((HEIGHT / 8 : Nat) : Int) then
    toU8 (((HEIGHT / 8 : Nat) : Int) - sRowInit y)
  else loopHInit h

/-- The variable `loop_h` after `loop_h -= start_h` (line 104). -/
def loopHOf (y : Int) (h : Nat) : Nat :=
  toU8 ((loopHClipped y h : Int) - startHOf y)

/-- The variable `sRow` after `sRow += start_h` (line 105). -/
def sRowOf (y : Int) : Int := toI8 (sRowInit y + startHOf y)

/-- The value `mul_amt = (1 << yOffset)`, a `uint8_t` (line 107). -/
def mulAmtOf (y : Int) : Nat := toU8 ((2 ^ (yOffsetOf y).toNat : Nat) : Int)

/-- The value `ofs = ((sRow * WIDTH) + x + xOffset)`, a `uint16_t` (line 108). -/
def ofsOf (x y : Int) : Nat := toU16 (sRowOf y * (WIDTH : Int) + x + xOffsetOf x)

/-- Index of `bofs` into the bitmap: `(start_h * w) + xOffset`. -/
def bofsOf (x y : Int) (w : Nat) : Nat := startHOf y * w + xOffsetOf x

/-! ## The compositing loops (`drawBitmap`, lines 111-254) -/

/-- The variables the loops update. -/
structure Cursor where
  /-- The memory at `Arduboy2Base::sBuffer`. -/
  sBuffer : Mem
  /-- The current page index, an `int8_t`. -/
  sRow : Int
  /-- The current framebuffer index, a `uint16_t`. -/
  ofs : Nat
  /-- The current index into the bitmap. -/
  bofs : Nat
  /-- The current index into the mask (`SPRITE_MASKED` only). -/
  mask_ofs : Nat

/-- Inner-loop body of `case SPRITE_UNMASKED` (lines 124-144). -/
def bodyUnmasked (bitmap : Mem) (yOffset : Int) (mul_amt mask_data : Nat)
    (s : Cursor) : Cursor :=
  let bitmap_data := toU16 ((pgm_read_byte bitmap s.bofs * mul_amt : Nat) : Int)
  let buf1 :=
    if s.sRow ≥ 0 then
      let data := s.sBuffer s.ofs
      let data := data &&& lowByte mask_data
      let data := data ||| lowByte bitmap_data
      write s.sBuffer s.ofs data
    else s.sBuffer
  let buf2 :=
    if yOffset ≠ 0 ∧ s.sRow < 7 then
      let index := toU16 ((s.ofs + WIDTH : Nat) : Int)
      let data := buf1 index
      let data := data &&& highByte mask_data
      let data := data ||| highByte bitmap_data
      write buf1 index data
    else buf1
  { s with sBuffer := buf2, ofs := toU16 ((s.ofs : Int) + 1), bofs := s.bofs + 1 }

/-- Inner-loop body of `case SPRITE_IS_MASK` (lines 160-169).  The high-byte index is
`ofs + WIDTH` as an `int`, not converted back to `uint16_t`. -/
def bodyIsMask (bitmap : Mem) (yOffset : Int) (mul_amt : Nat) (s : Cursor) : Cursor :=
  let bitmap_data := toU16 ((pgm_read_byte bitmap s.bofs * mul_amt : Nat) : Int)
  let buf1 :=
    if s.sRow ≥ 0 then
      write s.sBuffer s.ofs (s.sBuffer s.ofs ||| lowByte bitmap_data)
    else s.sBuffer
  let buf2 :=
    if yOffset ≠ 0 ∧ s.sRow < 7 then
      write buf1 (s.ofs + WIDTH) (buf1 (s.ofs + WIDTH) ||| highByte bitmap_data)
    else buf1
  { s with sBuffer := buf2, ofs := toU16 ((s.ofs : Int) + 1), bofs := s.bofs + 1 }

/-- Inner-loop body of `case SPRITE_IS_MASK_ERASE` (lines 185-197). -/
def bodyIsMaskErase (bitmap : Mem) (yOffset : Int) (mul_amt : Nat) (s : Cursor) : Cursor :=
  let bitmap_data := toU16 ((pgm_read_byte bitmap s.bofs * mul_amt : Nat) : Int)
  let buf1 :=
    if s.sRow ≥ 0 then
      write s.sBuffer s.ofs (s.sBuffer s.ofs &&& not8 (lowByte bitmap_data))
    else s.sBuffer
  let buf2 :=
    if yOffset ≠ 0 ∧ s.sRow < 7 then
      let index := toU16 ((s.ofs + WIDTH : Nat) : Int)
      write buf1 index (buf1 index &&& not8 (highByte bitmap_data))
    else buf1
  { s with sBuffer := buf2, ofs := toU16 ((s.ofs : Int) + 1), bofs := s.bofs + 1 }

/-- Inner-loop body of `case SPRITE_MASKED` (lines 223-245). -/
def bodyMasked (bitmap mask : Mem) (yOffset : Int) (mul_amt : Nat) (s : Cursor) : Cursor :=
  let mask_data := not16 (pgm_read_byte mask s.mask_ofs * mul_amt)
  let bitmap_data := toU16 ((pgm_read_byte bitmap s.bofs * mul_amt : Nat) : Int)
  let buf1 :=
    if s.sRow ≥ 0 then
      let data := s.sBuffer s.ofs
      let data := data &&& lowByte mask_data
      let data := data ||| lowByte bitmap_data
      write s.sBuffer s.ofs data
    else s.sBuffer
  let buf2 :=
    if yOffset ≠ 0 ∧ s.sRow < 7 then
      let index := toU16 ((s.ofs + WIDTH : Nat) : Int)
      let data := buf1 index
      let data := data &&& highByte mask_data
      let data := data ||| highByte bitmap_data
      write buf1 index data
    else buf1
  { s with sBuffer := buf2, ofs := toU16 ((s.ofs : Int) + 1),
           mask_ofs := s.mask_ofs + 1, bofs := s.bofs + 1 }

/-- End of one pass of the outer loop in the three modes without a mask pointer:
`++sRow; bofs += (w - rendered_width); ofs += (WIDTH - rendered_width)`. -/
def rowEnd (w rendered_width : Nat) (s : Cursor) : Cursor :=
  { s with sRow := toI8 (s.sRow + 1),
           bofs := ((s.bofs : Int) + ((w : Int) - rendered_width)).toNat,
           ofs := toU16 ((s.ofs : Int) + ((WIDTH : Int) - rendered_width)) }

/-- End of one pass of the outer loop of `case SPRITE_MASKED`, which also advances
`mask_ofs`. -/
def rowEndMasked (w rendered_width : Nat) (s : Cursor) : Cursor :=
  { s with sRow := toI8 (s.sRow + 1),
           bofs := ((s.bofs : Int) + ((w : Int) - rendered_width)).toNat,
           mask_ofs := ((s.mask_ofs : Int) + ((w : Int) - rendered_width)).toNat,
           ofs := toU16 ((s.ofs : Int) + ((WIDTH : Int) - rendered_width)) }

/-- The inner loop `for(uint8_t iCol = 0; iCol < rendered_width; ++iCol)`: the body is
run `rendered_width` times. -/
def colLoop (body : Cursor → Cursor) : Nat → Cursor → Cursor
  | 0, s => s
  | n + 1, s => colLoop body n (body s)

/-- The outer loop `for(uint8_t a = 0; a < loop_h; ++a)`: `loop_h` passes, each the
inner loop followed by the end-of-row updates. -/
def rowLoop (body rowEnd : Cursor → Cursor) (rendered_width : Nat) : Nat → Cursor → Cursor
  | 0, s => s
  | n + 1, s => rowLoop body rowEnd rendered_width n (rowEnd (colLoop body rendered_width s))

/-! ## `Sprites::drawBitmap` and `Sprites::draw` -/

/-- The function `Sprites::drawBitmap` (lines 70-396), as a function of the memory at `sBuffer`.
In `SPRITE_MASKED` mode the source dereferences `mask` unconditionally; for a null
`mask` the embedding leaves the memory as it is, and the theorems of the claims take a
non-null mask in that mode unless the draw is rejected before the dereference. -/
def drawBitmap (sBuffer : Mem) (x y : Int) (bitmap mask : Option Mem) (w h : Nat)
    (draw_mode : DrawMode) : Mem :=
  if x + w ≤ 0 ∨ x > (WIDTH : Int) - 1 ∨ y + h ≤ 0 ∨ y > (HEIGHT : Int) - 1 then sBuffer
  else
    match bitmap with
    | none => sBuffer
    | some bitmap =>
      let rendered_width := renderedWidthOf x w
      let yOffset := yOffsetOf y
      let loop_h := loopHOf y h
      let mul_amt := mulAmtOf y
      let start : Cursor :=
        { sBuffer := sBuffer, sRow := sRowOf y, ofs := ofsOf x y, bofs := bofsOf x y w,
          mask_ofs := bofsOf x y w }
      match draw_mode with
      | SPRITE_UNMASKED =>
        let mask_data := not16 (0xFF * mul_amt)
        (rowLoop (bodyUnmasked bitmap yOffset mul_amt mask_data) (rowEnd w rendered_width)
          rendered_width loop_h start).sBuffer
      | SPRITE_IS_MASK =>
        (rowLoop (bodyIsMask bitmap yOffset mul_amt) (rowEnd w rendered_width)
          rendered_width loop_h start).sBuffer
      | SPRITE_IS_MASK_ERASE =>
        (rowLoop (bodyIsMaskErase bitmap yOffset mul_amt) (rowEnd w rendered_width)
          rendered_width loop_h start).sBuffer
      | SPRITE_MASKED =>
        match mask with
        | none => sBuffer
        | some mask =>
          (rowLoop (bodyMasked bitmap mask yOffset mul_amt) (rowEndMasked w rendered_width)
            rendered_width loop_h start).sBuffer
      | SPRITE_PLUS_MASK => sBuffer
      | SPRITE_AUTO_MODE => sBuffer

/-- The value `frame_offset` of `Sprites::draw` (line 51): bytes of one frame,
`width * ceil(height / 8)`. -/
def frameOffset (width height : Nat) : Nat :=
  width * (height / 8 + (if height % 8 = 0 then 0 else 1))

/-- The function `Sprites::draw` (lines 38-68).  `unsigned int` is 32 bits wide, and the products
formed from `uint8_t` operands stay below `2 ^ 32`. -/
def draw (sBuffer : Mem) (x y : Int) (bitmap : Option Mem) (frame : Nat)
    (mask : Option Mem) (sprite_frame : Nat) (drawMode : DrawMode) : Mem :=
  match bitmap with
  | none => sBuffer
  | some bitmap0 =>
    let width := pgm_read_byte bitmap0 0
    let height := pgm_read_byte bitmap0 1
    let bitmap := advance bitmap0 2
    let frame_offset := frameOffset width height
    let maskp : Option Mem :=
      if frame > 0 ∨ sprite_frame > 0 then
        if drawMode = SPRITE_PLUS_MASK then mask
        else mask.map (fun m => advance m (sprite_frame * frame_offset))
      else mask
    let bitmapp : Mem :=
      if frame > 0 ∨ sprite_frame > 0 then
        if drawMode = SPRITE_PLUS_MASK then advance bitmap (frame * (frame_offset * 2))
        else advance bitmap (frame * frame_offset)
      else bitmap
    let drawMode :=
      if drawMode = SPRITE_AUTO_MODE then
        (if maskp.isNone then SPRITE_UNMASKED else SPRITE_MASKED)
      else drawMode
    drawBitmap sBuffer x y (some bitmapp) maskp width height drawMode

/-- The function `Sprites::drawExternalMask` (lines 11-14). -/
def drawExternalMask (sBuffer : Mem) (x y : Int) (bitmap mask : Option Mem)
    (frame mask_frame : Nat) : Mem :=
  draw sBuffer x y bitmap frame mask mask_frame SPRITE_MASKED

/-- The function `Sprites::drawOverwrite` (lines 16-19). -/
def drawOverwrite (sBuffer : Mem) (x y : Int) (bitmap : Option Mem) (frame : Nat) : Mem :=
  draw sBuffer x y bitmap frame none 0 SPRITE_OVERWRITE

/-- The function `Sprites::drawSelfMasked` (lines 26-29). -/
def drawSelfMasked (sBuffer : Mem) (x y : Int) (bitmap : Option Mem) (frame : Nat) : Mem :=
  draw sBuffer x y bitmap frame none 0 SPRITE_IS_MASK

/-- The function `Sprites::drawPlusMask` (lines 31-34). -/
def drawPlusMask (sBuffer : Mem) (x y : Int) (bitmap : Option Mem) (frame : Nat) : Mem :=
  draw sBuffer x y bitmap frame none 0 SPRITE_PLUS_MASK

/-- A bitmap resource given by its bytes: reads past the end give 0. -/
def ofBytes (l : List Nat) : Mem := fun i => l.getD i 0

/-! ## The common shape of the loops (used by the proofs) -/

/-- Index of the high-byte store for the low-byte index `o`: `static_cast<uint16_t>(ofs + WIDTH)`
when `wrap` is set, the unconverted `ofs + WIDTH` otherwise. -/
def hiIndex (wrap : Bool) (o : Nat) : Nat :=
  if wrap then toU16 ((o + WIDTH : Nat) : Int) else o + WIDTH

/-- The common shape of the four inner-loop bodies: `fLo` and `fHi` give the new low and
high destination bytes from the two source indices and the old destination byte; `dm` is
the step of `mask_ofs`. -/
def bodyGen (yOffset : Int) (wrap : Bool) (dm : Nat) (fLo fHi : Nat → Nat → Nat → Nat)
    (s : Cursor) : Cursor :=
  let buf1 :=
    if s.sRow ≥ 0 then write s.sBuffer s.ofs (fLo s.bofs s.mask_ofs (s.sBuffer s.ofs))
    else s.sBuffer
  let buf2 :=
    if yOffset ≠ 0 ∧ s.sRow < 7 then
      write buf1 (hiIndex wrap s.ofs) (fHi s.bofs s.mask_ofs (buf1 (hiIndex wrap s.ofs)))
    else buf1
  { sBuffer := buf2, sRow := s.sRow, ofs := toU16 ((s.ofs : Int) + 1), bofs := s.bofs + 1,
    mask_ofs := s.mask_ofs + dm }

/-- The common shape of the end-of-row updates; `dm` is 1 when `mask_ofs` advances. -/
def rowEndGen (dm w rendered_width : Nat) (s : Cursor) : Cursor :=
  { sBuffer := s.sBuffer, sRow := toI8 (s.sRow + 1),
    bofs := ((s.bofs : Int) + ((w : Int) - rendered_width)).toNat,
    mask_ofs := ((s.mask_ofs : Int) + dm * ((w : Int) - rendered_width)).toNat,
    ofs := toU16 ((s.ofs : Int) + ((WIDTH : Int) - rendered_width)) }

/-- Closed form of framebuffer byte `k` after `n` passes of the outer loop started at page
`S`, column `x0`, source indices `β` and `μ`, on the memory `F`: the byte is composed, at
most, by the high-byte store of pass `a - 1` followed by the low-byte store of pass `a`,
where `a` is the page of `k` minus `S`. -/
def byteAfter (yOffset : Int) (wrap : Bool) (dm : Nat) (fLo fHi : Nat → Nat → Nat → Nat)
    (w rw : Nat) (S : Int) (x0 β μ : Nat) (F : Mem) (n k : Nat) : Nat :=
  let q := k % 128
  let a : Int := ((k / 128 : Nat) : Int) - S
  if x0 ≤ q ∧ q < x0 + rw then
    let c := q - x0
    let v :=
      if 1 ≤ a ∧ a ≤ n ∧ yOffset ≠ 0 ∧ (wrap = true ∨ 128 ≤ k) then
        fHi (β + (a - 1).toNat * w + c) (μ + dm * ((a - 1).toNat * w + c)) (F k)
      else F k
    if 0 ≤ a ∧ a < n then fLo (β + a.toNat * w + c) (μ + dm * (a.toNat * w + c)) v else v
  else F k

/-! ## Per-mode byte compositions and geometry (used by the proofs) -/

/-- New low destination byte in `SPRITE_UNMASKED` mode, from the bitmap index `b` and the
old byte `d`. -/
def loUnmasked (bitmap : Mem) (mul_amt mask_data : Nat) (b d : Nat) : Nat :=
  (d &&& lowByte mask_data)
    ||| lowByte (toU16 ((pgm_read_byte bitmap b * mul_amt : Nat) : Int))

/-- New high destination byte in `SPRITE_UNMASKED` mode. -/
def hiUnmasked (bitmap : Mem) (mul_amt mask_data : Nat) (b d : Nat) : Nat :=
  (d &&& highByte mask_data)
    ||| highByte (toU16 ((pgm_read_byte bitmap b * mul_amt : Nat) : Int))

/-- New low destination byte in `SPRITE_IS_MASK` mode. -/
def loIsMask (bitmap : Mem) (mul_amt : Nat) (b d : Nat) : Nat :=
  d ||| lowByte (toU16 ((pgm_read_byte bitmap b * mul_amt : Nat) : Int))

/-- New high destination byte in `SPRITE_IS_MASK` mode. -/
def hiIsMask (bitmap : Mem) (mul_amt : Nat) (b d : Nat) : Nat :=
  d ||| highByte (toU16 ((pgm_read_byte bitmap b * mul_amt : Nat) : Int))

/-- New low destination byte in `SPRITE_IS_MASK_ERASE` mode. -/
def loIsMaskErase (bitmap : Mem) (mul_amt : Nat) (b d : Nat) : Nat :=
  d &&& not8 (lowByte (toU16 ((pgm_read_byte bitmap b * mul_amt : Nat) : Int)))

/-- New high destination byte in `SPRITE_IS_MASK_ERASE` mode. -/
def hiIsMaskErase (bitmap : Mem) (mul_amt : Nat) (b d : Nat) : Nat :=
  d &&& not8 (highByte (toU16 ((pgm_read_byte bitmap b * mul_amt : Nat) : Int)))

/-- New low destination byte in `SPRITE_MASKED` mode, from the bitmap index `b`, the mask
index `m` and the old byte `d`. -/
def loMasked (bitmap mask : Mem) (mul_amt : Nat) (b m d : Nat) : Nat :=
  (d &&& lowByte (not16 (pgm_read_byte mask m * mul_amt)))
    ||| lowByte (toU16 ((pgm_read_byte bitmap b * mul_amt : Nat) : Int))

/-- New high destination byte in `SPRITE_MASKED` mode. -/
def hiMasked (bitmap mask : Mem) (mul_amt : Nat) (b m d : Nat) : Nat :=
  (d &&& highByte (not16 (pgm_read_byte mask m * mul_amt)))
    ||| highByte (toU16 ((pgm_read_byte bitmap b * mul_amt : Nat) : Int))

/-- The draw is not rejected as off-screen (the negation of the test of line 73). -/
def Visible (x y : Int) (w h : Nat) : Prop :=
  ¬ (x + w ≤ 0 ∨ x > (WIDTH : Int) - 1 ∨ y + h ≤ 0 ∨ y > (HEIGHT : Int) - 1)

instance (x y : Int) (w h : Nat) : Decidable (Visible x y w h) := by
  unfold Visible; infer_instance

/-- Screen column of the first column drawn: `x + xOffset`. -/
def startCol (x : Int) : Nat := (x + xOffsetOf x).toNat

/-- Pixel `(px, py)` of a framebuffer: bit `py mod 8` of byte `(py / 8) * WIDTH + px`. -/
def pixel (fb : Mem) (px py : Nat) : Bool := (fb (py / 8 * WIDTH + px)).testBit (py % 8)

/-- Bit `(i, j)` of page-packed pixel data of width `w`: bit `j mod 8` of byte
`(j / 8) * w + i`. -/
def srcBit (data : Mem) (w i j : Nat) : Bool :=
  (pgm_read_byte data (j / 8 * w + i)).testBit (j % 8)

/-- Closed form of framebuffer byte `k` after a draw at `(x, y)` of a `w` by `h` sprite, in
sprite coordinates: with `i` the sprite column of `k` and `r` the source page-row whose
low byte lands on `k`, the byte is composed by the high-byte store of source row `r - 1`
(through `gHi`) followed by the low-byte store of source row `r` (through `gLo`); each
takes the index of the source byte and the old destination byte. -/
def byteClip (wrap : Bool) (gLo gHi : Nat → Nat → Nat) (w h : Nat) (x y : Int)
    (F : Mem) (k : Nat) : Nat :=
  let i : Int := ((k % 128 : Nat) : Int) - x
  let r : Int := ((k / 128 : Nat) : Int) - y / 8
  if 0 ≤ i ∧ i < w then
    let v :=
      if 1 ≤ r ∧ r ≤ (((h + 7) / 8 : Nat) : Int) ∧ y % 8 ≠ 0 ∧ (wrap = true ∨ 128 ≤ k) then
        gHi ((r - 1).toNat * w + i.toNat) (F k)
      else F k
    if 0 ≤ r ∧ r < (((h + 7) / 8 : Nat) : Int) then gLo (r.toNat * w + i.toNat) v else v
  else F k

/-- Closed form of bit `t` of framebuffer byte `k` after a draw at `(x, y)` of a `w` by `h`
sprite: with `(i, j)` the sprite coordinates of that pixel, the bit is `e old index bit`
of the source byte `index = (j / 8) * w + i`, bit `j mod 8`, when the pixel lies in the
footprint `[0, w) x [0, 8 * ceil(h / 8))`, and it is the old bit otherwise.  Without `wrap`
the high-byte stores that land on page 0 are missing. -/
def bitClip (wrap : Bool) (e : Bool → Nat → Nat → Bool) (w h : Nat) (x y : Int)
    (F : Mem) (k t : Nat) : Bool :=
  let i : Int := ((k % 128 : Nat) : Int) - x
  let j : Int := 8 * ((k / 128 : Nat) : Int) + t - y
  if 0 ≤ i ∧ i < w ∧ 0 ≤ j ∧ j < 8 * (((h + 7) / 8 : Nat) : Int)
      ∧ (wrap = true ∨ 128 ≤ k ∨ (y % 8).toNat ≤ t) then
    e ((F k).testBit t) (j.toNat / 8 * w + i.toNat) (j.toNat % 8)
  else (F k).testBit t

/-- Effect of `SPRITE_MASKED` on one bit: cleared where the mask bit is set, then ORed
with the bitmap bit. -/
def effMasked (bitmap mask : Mem) (old : Bool) (idx s : Nat) : Bool :=
  (old && !(pgm_read_byte mask idx).testBit s) || (pgm_read_byte bitmap idx).testBit s

/-- Effect of `SPRITE_UNMASKED` on one bit: replaced by the bitmap bit. -/
def effUnmasked (bitmap : Mem) (_old : Bool) (idx s : Nat) : Bool :=
  (pgm_read_byte bitmap idx).testBit s

/-- Effect of `SPRITE_IS_MASK` on one bit: ORed with the bitmap bit. -/
def effIsMask (bitmap : Mem) (old : Bool) (idx s : Nat) : Bool :=
  old || (pgm_read_byte bitmap idx).testBit s

/-- Effect of `SPRITE_IS_MASK_ERASE` on one bit: cleared where the bitmap bit is set. -/
def effIsMaskErase (bitmap : Mem) (old : Bool) (idx s : Nat) : Bool :=
  old && !(pgm_read_byte bitmap idx).testBit s

/-! ## Resources named by the claims -/

/-- The resource made of the two header bytes `w`, `h` of `res` followed by the bytes of
`res` from offset `2 + f * w * ceil(h / 8)` on: frame `f` of `res`, extracted.  The offset is
written out as the spec states it, with `ceil(h / 8) = (h + 7) / 8`, not through the
`frame_offset` the code computes. -/
def frameResource (res : Mem) (f : Nat) : Mem :=
  fun i =>
    if i < 2 then res i
    else res (i + f * (pgm_read_byte res 0 * ((pgm_read_byte res 1 + 7) / 8)))

/-- The mode `drawBitmap` receives from `draw`: `SPRITE_AUTO_MODE` resolved by the mask
pointer (lines 64-65). -/
def resolveMode (mode : DrawMode) (mask : Option Mem) : DrawMode :=
  if mode = SPRITE_AUTO_MODE then (if mask.isNone then SPRITE_UNMASKED else SPRITE_MASKED)
  else mode

/-- An all-zero framebuffer. -/
def blankBuffer : Mem := fun _ => 0

/-- A framebuffer with every pixel set. -/
def litBuffer : Mem := fun _ => 255

/-- An 8 by 8 bitmap resource whose eight pixel bytes are all `0xFF`. -/
def solidSprite : Mem := ofBytes [8, 8, 255, 255, 255, 255, 255, 255, 255, 255]

/-- An 8 by 8 bitmap resource whose column `c` holds the byte `c + 1`. -/
def rampSprite : Mem := ofBytes [8, 8, 1, 2, 3, 4, 5, 6, 7, 8]

/-- A two-frame bitmap resource, 8 wide and 12 high (two page-rows, 16 bytes a frame):
frame 0 holds the bytes 1..16, frame 1 the bytes 101..116. -/
def twoFrameSprite : Mem :=
  ofBytes [8, 12,
    1, 2, 3, 4, 5, 6, 7, 8, 9, 10, 11, 12, 13, 14, 15, 16,
    101, 102, 103, 104, 105, 106, 107, 108, 109, 110, 111, 112, 113, 114, 115, 116]

/-- Mask data of eight bytes, all zero: no pixel is to be drawn. -/
def emptyMask : Mem := ofBytes [0, 0, 0, 0, 0, 0, 0, 0]

/-- Mask data whose bytes are all `0xFF`: every pixel is to be drawn. -/
def fullMask : Mem := fun _ => 255

/-! ## Indices read and written (for the bounds claims) -/

/-- The loop variables at the start of each pass of the inner loop, in order: the inner
loop of `colLoop`, with each cursor recorded before the body runs on it. -/
def colVisited (body : Cursor → Cursor) : Nat → Cursor → List Cursor
  | 0, _ => []
  | n + 1, s => s :: colVisited body n (body s)

/-- The loop variables at the start of each pass of the inner body over the whole of
`rowLoop`, in order. -/
def rowVisited (body rowEnd : Cursor → Cursor) (rendered_width : Nat) :
    Nat → Cursor → List Cursor
  | 0, _ => []
  | n + 1, s =>
    colVisited body rendered_width s
      ++ rowVisited body rowEnd rendered_width n (rowEnd (colLoop body rendered_width s))

/-- The loop variables at the start of each pass of the inner body during a call of
`drawBitmap`: the same case analysis as `drawBitmap`, with `rowVisited` for `rowLoop`. -/
def drawBitmapVisited (sBuffer : Mem) (x y : Int) (bitmap mask : Option Mem) (w h : Nat)
    (draw_mode : DrawMode) : List Cursor :=
  if x + w ≤ 0 ∨ x > (WIDTH : Int) - 1 ∨ y + h ≤ 0 ∨ y > (HEIGHT : Int) - 1 then []
  else
    match bitmap with
    | none => []
    | some bitmap =>
      let rendered_width := renderedWidthOf x w
      let yOffset := yOffsetOf y
      let loop_h := loopHOf y h
      let mul_amt := mulAmtOf y
      let start : Cursor :=
        { sBuffer := sBuffer, sRow := sRowOf y, ofs := ofsOf x y, bofs := bofsOf x y w,
          mask_ofs := bofsOf x y w }
      match draw_mode with
      | SPRITE_UNMASKED =>
        rowVisited (bodyUnmasked bitmap yOffset mul_amt (not16 (0xFF * mul_amt)))
          (rowEnd w rendered_width) rendered_width loop_h start
      | SPRITE_IS_MASK =>
        rowVisited (bodyIsMask bitmap yOffset mul_amt) (rowEnd w rendered_width)
          rendered_width loop_h start
      | SPRITE_IS_MASK_ERASE =>
        rowVisited (bodyIsMaskErase bitmap yOffset mul_amt) (rowEnd w rendered_width)
          rendered_width loop_h start
      | SPRITE_MASKED =>
        match mask with
        | none => []
        | some mask =>
          rowVisited (bodyMasked bitmap mask yOffset mul_amt) (rowEndMasked w rendered_width)
            rendered_width loop_h start
      | SPRITE_PLUS_MASK => []
      | SPRITE_AUTO_MODE => []

/-- Indices of the bitmap bytes read by a call of `drawBitmap`: each pass of the inner
body reads `pgm_read_byte(bofs)` once (lines 124, 160, 185, 224). -/
def bitmapReads (sBuffer : Mem) (x y : Int) (bitmap mask : Option Mem) (w h : Nat)
    (draw_mode : DrawMode) : List Nat :=
  (drawBitmapVisited sBuffer x y bitmap mask w h draw_mode).map (fun s => s.bofs)

/-- Indices of the mask bytes read by a call of `drawBitmap`: in `SPRITE_MASKED` mode each
pass of the inner body reads `pgm_read_byte(mask_ofs)` once (line 223); the other modes
read no mask byte. -/
def maskReads (sBuffer : Mem) (x y : Int) (bitmap mask : Option Mem) (w h : Nat)
    (draw_mode : DrawMode) : List Nat :=
  if draw_mode = SPRITE_MASKED then
    (drawBitmapVisited sBuffer x y bitmap mask w h draw_mode).map (fun s => s.mask_ofs)
  else []

/-- Indices of `sBuffer` read and written by one pass of the inner body at the cursor `s`:
the low-byte index `ofs` under the guard `sRow >= 0`, and the high-byte index under the
guard `yOffset != 0 && sRow < 7`, which is `static_cast<uint16_t>(ofs + WIDTH)` in the
modes `SPRITE_UNMASKED`, `SPRITE_IS_MASK_ERASE` and `SPRITE_MASKED` (lines 136, 192, 236)
and the unconverted `ofs + WIDTH` in `SPRITE_IS_MASK` (line 166). -/
def bufferAccesses (draw_mode : DrawMode) (yOffset : Int) (s : Cursor) : List Nat :=
  (if s.sRow ≥ 0 then [s.ofs] else [])
    ++ (if yOffset ≠ 0 ∧ s.sRow < 7 then
          [if draw_mode = SPRITE_IS_MASK then s.ofs + WIDTH
           else toU16 ((s.ofs + WIDTH : Nat) : Int)]
        else [])

/-- Indices of `sBuffer` read and written by a call of `drawBitmap`. -/
def drawBitmapAccesses (sBuffer : Mem) (x y : Int) (bitmap mask : Option Mem) (w h : Nat)
    (draw_mode : DrawMode) : List Nat :=
  (drawBitmapVisited sBuffer x y bitmap mask w h draw_mode).flatMap
    (bufferAccesses draw_mode (yOffsetOf y))

/-! ## Machine-integer facts -/

theorem toU16_natCast (n : Nat) : toU16 (n : Int) = n % 65536 := by
  unfold toU16; omega

theorem toU8_natCast (n : Nat) : toU8 (n : Int) = n % 256 := by
  unfold toU8; omega

theorem write_same (m : Mem) (i v : Nat) : write m i v i = v := by
  simp [write]

theorem write_other (m : Mem) (i v k : Nat) (h : k ≠ i) : write m i v k = m k := by
  simp [write, h]

/-! ## The loops run their bodies in order -/

theorem colLoop_succ (body : Cursor → Cursor) (n : Nat) (s : Cursor) :
    colLoop body (n + 1) s = body (colLoop body n s) := by
  induction n generalizing s with
  | zero => rfl
  | succ n ih =>
    show colLoop body (n + 1) (body s) = _
    rw [ih]; rfl

theorem rowLoop_succ (body rowEnd : Cursor → Cursor) (rw n : Nat) (s : Cursor) :
    rowLoop body rowEnd rw (n + 1) s
      = rowEnd (colLoop body rw (rowLoop body rowEnd rw n s)) := by
  induction n generalizing s with
  | zero => rfl
  | succ n ih =>
    show rowLoop body rowEnd rw (n + 1) (rowEnd (colLoop body rw s)) = _
    rw [ih]; rfl

/-! ## One pass of the common body -/

section Generic

variable (yo : Int) (wrap : Bool) (dm : Nat) (fLo fHi : Nat → Nat → Nat → Nat)

theorem bodyGen_sRow (t : Cursor) : (bodyGen yo wrap dm fLo fHi t).sRow = t.sRow := rfl

theorem bodyGen_ofs (t : Cursor) :
    (bodyGen yo wrap dm fLo fHi t).ofs = (t.ofs + 1) % 65536 := by
  show toU16 ((t.ofs : Int) + 1) = _
  unfold toU16; omega

theorem bodyGen_bofs (t : Cursor) : (bodyGen yo wrap dm fLo fHi t).bofs = t.bofs + 1 := rfl

theorem bodyGen_mask_ofs (t : Cursor) :
    (bodyGen yo wrap dm fLo fHi t).mask_ofs = t.mask_ofs + dm := rfl

theorem bodyGen_other (t : Cursor) (k : Nat)
    (hlo : ¬ (t.sRow ≥ 0 ∧ k = t.ofs))
    (hhi : ¬ (yo ≠ 0 ∧ t.sRow < 7 ∧ k = hiIndex wrap t.ofs)) :
    (bodyGen yo wrap dm fLo fHi t).sBuffer k = t.sBuffer k := by
  unfold bodyGen
  simp only
  by_cases h1 : t.sRow ≥ 0 <;> by_cases h2 : yo ≠ 0 ∧ t.sRow < 7
  · have hk1 : k ≠ t.ofs := fun h => hlo ⟨h1, h⟩
    have hk2 : k ≠ hiIndex wrap t.ofs := fun h => hhi ⟨h2.1, h2.2, h⟩
    rw [if_pos h1, if_pos h2, write_other _ _ _ _ hk2, write_other _ _ _ _ hk1]
  · have hk1 : k ≠ t.ofs := fun h => hlo ⟨h1, h⟩
    rw [if_pos h1, if_neg h2, write_other _ _ _ _ hk1]
  · have hk2 : k ≠ hiIndex wrap t.ofs := fun h => hhi ⟨h2.1, h2.2, h⟩
    rw [if_neg h1, if_pos h2, write_other _ _ _ _ hk2]
  · rw [if_neg h1, if_neg h2]

theorem bodyGen_lo (t : Cursor) (k : Nat) (h1 : t.sRow ≥ 0) (hk : k = t.ofs)
    (hhi : ¬ (yo ≠ 0 ∧ t.sRow < 7 ∧ k = hiIndex wrap t.ofs)) :
    (bodyGen yo wrap dm fLo fHi t).sBuffer k = fLo t.bofs t.mask_ofs (t.sBuffer k) := by
  unfold bodyGen
  simp only
  by_cases h2 : yo ≠ 0 ∧ t.sRow < 7
  · have hk2 : k ≠ hiIndex wrap t.ofs := fun h => hhi ⟨h2.1, h2.2, h⟩
    rw [if_pos h1, if_pos h2, write_other _ _ _ _ hk2, hk, write_same]
  · rw [if_pos h1, if_neg h2, hk, write_same]

theorem bodyGen_hi (t : Cursor) (k : Nat) (h0 : yo ≠ 0) (h7 : t.sRow < 7)
    (hk : k = hiIndex wrap t.ofs) (hne : k ≠ t.ofs) :
    (bodyGen yo wrap dm fLo fHi t).sBuffer k = fHi t.bofs t.mask_ofs (t.sBuffer k) := by
  unfold bodyGen
  simp only
  have h2 : yo ≠ 0 ∧ t.sRow < 7 := ⟨h0, h7⟩
  rw [if_pos h2, hk, write_same]
  by_cases h1 : t.sRow ≥ 0
  · rw [if_pos h1, write_other _ _ _ _ (hk ▸ hne)]
  · rw [if_neg h1]

/-! ## The inner loop over the common body -/

theorem colLoop_gen_cursor (s : Cursor) (hs : s.ofs < 65536) (n : Nat) :
    (colLoop (bodyGen yo wrap dm fLo fHi) n s).sRow = s.sRow ∧
    (colLoop (bodyGen yo wrap dm fLo fHi) n s).ofs = (s.ofs + n) % 65536 ∧
    (colLoop (bodyGen yo wrap dm fLo fHi) n s).bofs = s.bofs + n ∧
    (colLoop (bodyGen yo wrap dm fLo fHi) n s).mask_ofs = s.mask_ofs + dm * n := by
  induction n with
  | zero =>
    refine ⟨rfl, ?_, rfl, ?_⟩
    · show s.ofs = _
      omega
    · show s.mask_ofs = _
      simp
  | succ n ih =>
    obtain ⟨h1, h2, h3, h4⟩ := ih
    rw [colLoop_succ]
    refine ⟨?_, ?_, ?_, ?_⟩
    · rw [bodyGen_sRow, h1]
    · rw [bodyGen_ofs, h2]; omega
    · rw [bodyGen_bofs, h3]; omega
    · rw [bodyGen_mask_ofs, h4, Nat.mul_succ]; omega

theorem colLoop_gen_untouched (s : Cursor) (hs : s.ofs < 65536) (k n : Nat)
    (hlo : ∀ c, c < n → ¬ (s.sRow ≥ 0 ∧ k = (s.ofs + c) % 65536))
    (hhi : ∀ c, c < n → ¬ (yo ≠ 0 ∧ s.sRow < 7 ∧ k = hiIndex wrap ((s.ofs + c) % 65536))) :
    (colLoop (bodyGen yo wrap dm fLo fHi) n s).sBuffer k = s.sBuffer k := by
  induction n with
  | zero => rfl
  | succ n ih =>
    obtain ⟨h1, h2, -, -⟩ := colLoop_gen_cursor yo wrap dm fLo fHi s hs n
    rw [colLoop_succ, bodyGen_other]
    · exact ih (fun c hc => hlo c (by omega)) (fun c hc => hhi c (by omega))
    · rw [h1, h2]; exact hlo n (by omega)
    · rw [h1, h2]; exact hhi n (by omega)

theorem colLoop_gen_lo (s : Cursor) (hs : s.ofs < 65536) (k n c : Nat) (hc : c < n)
    (h1 : s.sRow ≥ 0) (hk : k = (s.ofs + c) % 65536)
    (hlo : ∀ d, d < n → d ≠ c → k ≠ (s.ofs + d) % 65536)
    (hhi : ∀ d, d < n → ¬ (yo ≠ 0 ∧ s.sRow < 7 ∧ k = hiIndex wrap ((s.ofs + d) % 65536))) :
    (colLoop (bodyGen yo wrap dm fLo fHi) n s).sBuffer k
      = fLo (s.bofs + c) (s.mask_ofs + dm * c) (s.sBuffer k) := by
  induction n with
  | zero => omega
  | succ n ih =>
    obtain ⟨e1, e2, e3, e4⟩ := colLoop_gen_cursor yo wrap dm fLo fHi s hs n
    rw [colLoop_succ]
    by_cases hcn : c = n
    · subst hcn
      rw [bodyGen_lo _ _ _ _ _ _ _ (by rw [e1]; exact h1) (by rw [e2]; exact hk)
        (by rw [e1, e2]; exact hhi c (by omega)), e3, e4]
      rw [colLoop_gen_untouched yo wrap dm fLo fHi s hs k c
        (fun d hd hh => hlo d (by omega) (by omega) hh.2)
        (fun d hd => hhi d (by omega))]
    · rw [bodyGen_other]
      · exact ih (by omega) (fun d hd => hlo d (by omega)) (fun d hd => hhi d (by omega))
      · rw [e1, e2]; exact fun hh => hlo n (by omega) (by omega) hh.2
      · rw [e1, e2]; exact hhi n (by omega)

theorem colLoop_gen_hi (s : Cursor) (hs : s.ofs < 65536) (k n c : Nat) (hc : c < n)
    (h0 : yo ≠ 0) (h7 : s.sRow < 7) (hk : k = hiIndex wrap ((s.ofs + c) % 65536))
    (hhi : ∀ d, d < n → d ≠ c → k ≠ hiIndex wrap ((s.ofs + d) % 65536))
    (hlo : ∀ d, d < n → k ≠ (s.ofs + d) % 65536) :
    (colLoop (bodyGen yo wrap dm fLo fHi) n s).sBuffer k
      = fHi (s.bofs + c) (s.mask_ofs + dm * c) (s.sBuffer k) := by
  induction n with
  | zero => omega
  | succ n ih =>
    obtain ⟨e1, e2, e3, e4⟩ := colLoop_gen_cursor yo wrap dm fLo fHi s hs n
    rw [colLoop_succ]
    by_cases hcn : c = n
    · subst hcn
      rw [bodyGen_hi _ _ _ _ _ _ _ h0 (by rw [e1]; exact h7) (by rw [e2]; exact hk)
        (by rw [e2]; exact hlo c (by omega)), e3, e4]
      rw [colLoop_gen_untouched yo wrap dm fLo fHi s hs k c
        (fun d hd hh => hlo d (by omega) hh.2)
        (fun d hd hh => hhi d (by omega) (by omega) hh.2.2)]
    · rw [bodyGen_other]
      · exact ih (by omega) (fun d hd => hhi d (by omega)) (fun d hd => hlo d (by omega))
      · rw [e1, e2]; exact fun hh => hlo n (by omega) hh.2
      · rw [e1, e2]; exact fun hh => hhi n (by omega) (by omega) hh.2.2

end Generic

section GenericRows

variable (yo : Int) (wrap : Bool) (dm : Nat) (fLo fHi : Nat → Nat → Nat → Nat)

theorem rowEndGen_sBuffer (w rw : Nat) (t : Cursor) :
    (rowEndGen dm w rw t).sBuffer = t.sBuffer := rfl

/-- Closed form of the loop variables after `n` passes of the outer loop. -/
theorem rowLoop_gen_cursor (w rw : Nat) (s : Cursor) (hs : s.ofs < 65536)
    (hlow : -128 ≤ s.sRow) (n : Nat) (hhigh : s.sRow + n ≤ 127) :
    (rowLoop (bodyGen yo wrap dm fLo fHi) (rowEndGen dm w rw) rw n s).sRow = s.sRow + n ∧
    (rowLoop (bodyGen yo wrap dm fLo fHi) (rowEndGen dm w rw) rw n s).ofs
      = (s.ofs + n * 128) % 65536 ∧
    (rowLoop (bodyGen yo wrap dm fLo fHi) (rowEndGen dm w rw) rw n s).bofs
      = s.bofs + n * w ∧
    (rowLoop (bodyGen yo wrap dm fLo fHi) (rowEndGen dm w rw) rw n s).mask_ofs
      = s.mask_ofs + dm * (n * w) := by
  induction n with
  | zero =>
    refine ⟨?_, ?_, ?_, ?_⟩
    · show s.sRow = _
      simp
    · show s.ofs = _
      omega
    · show s.bofs = _
      simp
    · show s.mask_ofs = _
      simp
  | succ n ih =>
    obtain ⟨h1, h2, h3, h4⟩ := ih (by push_cast at hhigh; omega)
    have h2lt : (rowLoop (bodyGen yo wrap dm fLo fHi) (rowEndGen dm w rw) rw n s).ofs < 65536 := by
      rw [h2]; omega
    obtain ⟨c1, c2, c3, c4⟩ := colLoop_gen_cursor yo wrap dm fLo fHi _ h2lt rw
    rw [rowLoop_succ]
    refine ⟨?_, ?_, ?_, ?_⟩
    · show toI8 (_ + 1) = _
      rw [c1, h1]; unfold toI8; push_cast at hhigh ⊢; omega
    · show toU16 (_ + ((WIDTH : Int) - rw)) = _
      rw [c2, h2]; unfold toU16 WIDTH; push_cast; omega
    · show Int.toNat (_ + ((w : Int) - rw)) = _
      rw [c3, h3, Nat.succ_mul]; push_cast; omega
    · show Int.toNat (_ + (dm : Int) * ((w : Int) - rw)) = _
      rw [c4, h4, Nat.succ_mul, Nat.mul_add]
      have e : (((s.mask_ofs + dm * (n * w) + dm * rw : Nat) : Int) + (dm : Int) * ((w : Int) - rw))
          = ((s.mask_ofs + (dm * (n * w) + dm * w) : Nat) : Int) := by
        push_cast; ring
      rw [e]; exact Int.toNat_ofNat _

/-- Where the stores of one pass land: low bytes on page `S`, high bytes on page `S + 1`,
column `x0 + c` for the `c`-th column of the pass. -/
theorem index_facts (S : Int) (x0 o c : Nat) (hS : -1 ≤ S) (h7 : S ≤ 7) (hx : x0 + c < 128)
    (ho : o = toU16 (S * 128 + x0)) :
    (0 ≤ S → (o + c) % 65536 = (S * 128 + x0 + c).toNat) ∧
    hiIndex true ((o + c) % 65536) = ((S + 1) * 128 + x0 + c).toNat ∧
    (0 ≤ S → hiIndex false ((o + c) % 65536) = ((S + 1) * 128 + x0 + c).toNat) ∧
    (S < 0 → 65536 ≤ hiIndex false ((o + c) % 65536)) ∧
    (S < 0 → 65408 ≤ (o + c) % 65536) := by
  unfold toU16 at ho
  unfold hiIndex toU16 WIDTH
  simp only [if_true, if_false, Bool.false_eq_true]
  refine ⟨fun h => ?_, ?_, fun h => ?_, fun h => ?_, fun h => ?_⟩ <;> omega

/-- The framebuffer byte `k` after one pass of the inner loop started on page `S` at
column `x0`. -/
theorem colLoop_gen_byte (rw : Nat) (S : Int) (x0 : Nat) (t : Cursor)
    (hS : -1 ≤ S) (h7 : S ≤ 7) (hx : x0 + rw ≤ 128)
    (hsRow : t.sRow = S) (hofs : t.ofs = toU16 (S * 128 + x0))
    (k : Nat) (hk : k < 1024) :
    (colLoop (bodyGen yo wrap dm fLo fHi) rw t).sBuffer k
      = if x0 ≤ k % 128 ∧ k % 128 < x0 + rw then
          if ((k / 128 : Nat) : Int) = S then
            fLo (t.bofs + (k % 128 - x0)) (t.mask_ofs + dm * (k % 128 - x0)) (t.sBuffer k)
          else if ((k / 128 : Nat) : Int) = S + 1 ∧ yo ≠ 0 ∧ (wrap = true ∨ 128 ≤ k) then
            fHi (t.bofs + (k % 128 - x0)) (t.mask_ofs + dm * (k % 128 - x0)) (t.sBuffer k)
          else t.sBuffer k
        else t.sBuffer k := by
  have hs : t.ofs < 65536 := by rw [hofs]; unfold toU16; omega
  have F := fun c (hc : c < rw) => index_facts S x0 t.ofs c hS h7 (by omega) hofs
  clear hofs
  by_cases hcol : x0 ≤ k % 128 ∧ k % 128 < x0 + rw
  · rw [if_pos hcol]
    by_cases hA : ((k / 128 : Nat) : Int) = S
    · rw [if_pos hA]
      have hk' := (F (k % 128 - x0) (by omega)).1 (by omega)
      refine colLoop_gen_lo yo wrap dm fLo fHi t hs k rw (k % 128 - x0) (by omega)
        (by omega) (by omega) (fun d hd hne he => ?_) (fun d hd hh => ?_)
      · have := (F d hd).1 (by omega)
        omega
      · obtain ⟨f1, f2, f3, f4, f5⟩ := F d hd
        cases wrap
        · have := f3 (by omega)
          omega
        · omega
    · rw [if_neg hA]
      by_cases hB : ((k / 128 : Nat) : Int) = S + 1 ∧ yo ≠ 0 ∧ (wrap = true ∨ 128 ≤ k)
      · rw [if_pos hB]
        obtain ⟨hB1, hB2, hB3⟩ := hB
        have hidx : ∀ d, d < rw → hiIndex wrap ((t.ofs + d) % 65536)
            = ((S + 1) * 128 + x0 + d).toNat := by
          intro d hd
          obtain ⟨f1, f2, f3, f4, f5⟩ := F d hd
          rcases hB3 with hB3 | hB3
          · rw [hB3]; exact f2
          · cases wrap
            · exact f3 (by omega)
            · exact f2
        refine colLoop_gen_hi yo wrap dm fLo fHi t hs k rw (k % 128 - x0) (by omega)
          hB2 (by omega) ?_ (fun d hd hne => ?_) (fun d hd he => ?_)
        · rw [hidx _ (by omega)]; omega
        · rw [hidx d hd]; omega
        · obtain ⟨f1, f2, f3, f4, f5⟩ := F d hd
          by_cases h0 : 0 ≤ S
          · have := f1 h0
            omega
          · have := f5 (by omega)
            omega
      · rw [if_neg hB]
        refine colLoop_gen_untouched yo wrap dm fLo fHi t hs k rw
          (fun c hc hh => ?_) (fun c hc hh => ?_)
        · have := (F c hc).1 (by omega)
          omega
        · obtain ⟨f1, f2, f3, f4, f5⟩ := F c hc
          obtain ⟨hh1, hh2, hh3⟩ := hh
          apply hB
          cases wrap
          · by_cases h0 : 0 ≤ S
            · have := f3 h0
              exact ⟨by omega, hh1, Or.inr (by omega)⟩
            · have := f4 (by omega)
              omega
          · exact ⟨by omega, hh1, Or.inl rfl⟩
  · rw [if_neg hcol]
    refine colLoop_gen_untouched yo wrap dm fLo fHi t hs k rw
      (fun c hc hh => ?_) (fun c hc hh => ?_)
    · have := (F c hc).1 (by omega)
      omega
    · obtain ⟨f1, f2, f3, f4, f5⟩ := F c hc
      obtain ⟨hh1, hh2, hh3⟩ := hh
      cases wrap
      · by_cases h0 : 0 ≤ S
        · have := f3 h0
          omega
        · have := f4 (by omega)
          omega
      · omega

/-- The framebuffer byte `k` after `n` passes of the outer loop. -/
theorem rowLoop_gen_byte (w rw : Nat) (S : Int) (x0 L : Nat) (s : Cursor)
    (hS : -1 ≤ S) (hL : S + L ≤ 8) (hx : x0 + rw ≤ 128)
    (hsRow : s.sRow = S) (hofs : s.ofs = toU16 (S * 128 + x0))
    (k : Nat) (hk : k < 1024) (n : Nat) (hn : n ≤ L) :
    (rowLoop (bodyGen yo wrap dm fLo fHi) (rowEndGen dm w rw) rw n s).sBuffer k
      = byteAfter yo wrap dm fLo fHi w rw S x0 s.bofs s.mask_ofs s.sBuffer n k := by
  have hs : s.ofs < 65536 := by rw [hofs]; unfold toU16; omega
  induction n with
  | zero =>
    show s.sBuffer k = _
    unfold byteAfter
    simp only []
    split_ifs <;> first | rfl | omega
  | succ n ih =>
    have ih := ih (by omega)
    obtain ⟨r1, r2, r3, r4⟩ := rowLoop_gen_cursor yo wrap dm fLo fHi w rw s hs
      (by omega) n (by omega)
    rw [hsRow] at r1
    have r2' : (rowLoop (bodyGen yo wrap dm fLo fHi) (rowEndGen dm w rw) rw n s).ofs
        = toU16 ((S + n) * 128 + x0) := by
      rw [r2, hofs]; unfold toU16; omega
    rw [rowLoop_succ, rowEndGen_sBuffer,
      colLoop_gen_byte yo wrap dm fLo fHi rw (S + n) x0 _ (by omega) (by omega) hx r1 r2' k hk,
      ih, r3, r4]
    clear r1 r2 r2' r3 r4 ih hofs hs hsRow
    unfold byteAfter
    simp only []
    by_cases hcol : x0 ≤ k % 128 ∧ k % 128 < x0 + rw
    · rw [if_pos hcol, if_pos hcol, if_pos hcol]
      by_cases hA : ((k / 128 : Nat) : Int) = S + n
      · have lo_n : ¬ (0 ≤ ((k / 128 : Nat) : Int) - S ∧ ((k / 128 : Nat) : Int) - S < (n : Int)) := by
          omega
        have lo_n1 : 0 ≤ ((k / 128 : Nat) : Int) - S
            ∧ ((k / 128 : Nat) : Int) - S < ((n + 1 : Nat) : Int) := by
          push_cast; omega
        rw [if_pos hA, if_neg lo_n, if_pos lo_n1]
        have e1 : (((k / 128 : Nat) : Int) - S).toNat = n := by omega
        rw [e1]
        congr 1
        · rw [Nat.mul_add]; omega
        · by_cases hv : 1 ≤ ((k / 128 : Nat) : Int) - S ∧ ((k / 128 : Nat) : Int) - S ≤ (n : Int)
              ∧ yo ≠ 0 ∧ (wrap = true ∨ 128 ≤ k)
          · rw [if_pos hv, if_pos ⟨hv.1, by push_cast; omega, hv.2.2⟩]
          · rw [if_neg hv, if_neg (fun hh => hv ⟨hh.1, by omega, hh.2.2⟩)]
      · rw [if_neg hA]
        by_cases hB : ((k / 128 : Nat) : Int) = S + n + 1 ∧ yo ≠ 0 ∧ (wrap = true ∨ 128 ≤ k)
        · obtain ⟨hB1, hB2, hB3⟩ := hB
          have lo_n : ¬ (0 ≤ ((k / 128 : Nat) : Int) - S ∧ ((k / 128 : Nat) : Int) - S < (n : Int)) := by
            omega
          have lo_n1 : ¬ (0 ≤ ((k / 128 : Nat) : Int) - S
              ∧ ((k / 128 : Nat) : Int) - S < ((n + 1 : Nat) : Int)) := by
            push_cast; omega
          have hi_n : ¬ (1 ≤ ((k / 128 : Nat) : Int) - S ∧ ((k / 128 : Nat) : Int) - S ≤ (n : Int)
              ∧ yo ≠ 0 ∧ (wrap = true ∨ 128 ≤ k)) := by
            omega
          have hi_n1 : 1 ≤ ((k / 128 : Nat) : Int) - S
              ∧ ((k / 128 : Nat) : Int) - S ≤ ((n + 1 : Nat) : Int)
              ∧ yo ≠ 0 ∧ (wrap = true ∨ 128 ≤ k) :=
            ⟨by omega, by push_cast; omega, hB2, hB3⟩
          rw [if_pos ⟨hB1, hB2, hB3⟩, if_neg lo_n, if_neg lo_n1, if_neg hi_n, if_pos hi_n1]
          have e1 : (((k / 128 : Nat) : Int) - S - 1).toNat = n := by omega
          rw [e1]
          congr 1
          rw [Nat.mul_add]; omega
        · rw [if_neg hB]
          have c1 : (0 ≤ ((k / 128 : Nat) : Int) - S ∧ ((k / 128 : Nat) : Int) - S < ((n + 1 : Nat) : Int))
              ↔ (0 ≤ ((k / 128 : Nat) : Int) - S ∧ ((k / 128 : Nat) : Int) - S < (n : Int)) := by
            push_cast; omega
          have c2 : (1 ≤ ((k / 128 : Nat) : Int) - S ∧ ((k / 128 : Nat) : Int) - S ≤ ((n + 1 : Nat) : Int)
              ∧ yo ≠ 0 ∧ (wrap = true ∨ 128 ≤ k))
              ↔ (1 ≤ ((k / 128 : Nat) : Int) - S ∧ ((k / 128 : Nat) : Int) - S ≤ (n : Int)
              ∧ yo ≠ 0 ∧ (wrap = true ∨ 128 ≤ k)) := by
            constructor
            · rintro ⟨a1, a2, a3, a4⟩
              refine ⟨a1, ?_, a3, a4⟩
              by_contra hcon
              exact hB ⟨by push_cast at a2; omega, a3, a4⟩
            · rintro ⟨a1, a2, a3, a4⟩
              exact ⟨a1, by push_cast; omega, a3, a4⟩
          simp only [c1, c2]
    · rw [if_neg hcol, if_neg hcol, if_neg hcol]

end GenericRows

/-! ## Clipping and alignment values -/

theorem tdiv_eight (y : Int) :
    Int.tdiv y 8 = if 0 ≤ y then y / 8 else -((-y) / 8) := by
  split_ifs with h
  · exact Int.tdiv_eq_ediv h (by norm_num)
  · have e := Int.neg_tdiv (-y) 8
    rw [neg_neg] at e
    rw [e, Int.tdiv_eq_ediv (by omega) (by norm_num)]

theorem visible_iff (x y : Int) (w h : Nat) :
    Visible x y w h ↔ 0 < x + w ∧ x ≤ 127 ∧ 0 < y + h ∧ y ≤ 63 := by
  unfold Visible WIDTH HEIGHT
  push_cast
  omega

theorem xOffsetOf_eq (x : Int) (hx : -65536 < x) : (xOffsetOf x : Int) = max 0 (-x) := by
  unfold xOffsetOf toU16
  split_ifs <;> omega

theorem renderedWidthOf_eq (x : Int) (w : Nat) (hw : w < 256) (h1 : 0 < x + w)
    (h2 : x ≤ 127) :
    (renderedWidthOf x w : Int) = min ((w : Int) - max 0 (-x)) (128 - x - max 0 (-x)) := by
  unfold renderedWidthOf toU8 WIDTH
  rw [xOffsetOf_eq x (by omega)]
  push_cast
  split_ifs <;> omega

theorem yOffsetOf_eq (y : Int) : yOffsetOf y = y % 8 := by
  unfold yOffsetOf toI8; omega

theorem sRowInit_eq (y : Int) (h1 : -1024 ≤ y) (h2 : y ≤ 1023) : sRowInit y = y / 8 := by
  unfold sRowInit tempSRowOf
  rw [yOffsetOf_eq, tdiv_eight]
  unfold toI8
  split_ifs <;> omega

theorem startHOf_eq (y : Int) (h1 : -1024 ≤ y) (h2 : y ≤ 1023) :
    (startHOf y : Int) = max 0 (-(y / 8) - 1) := by
  unfold startHOf toU8
  rw [sRowInit_eq y h1 h2]
  split_ifs <;> omega

theorem loopHInit_eq (h : Nat) (hh : h < 256) : loopHInit h = (h + 7) / 8 := by
  unfold loopHInit rowsOf toU8
  split_ifs <;> omega

theorem loopHOf_eq (y : Int) (h : Nat) (hh : h < 256) (h1 : 0 < y + h) (h2 : y ≤ 63) :
    (loopHOf y h : Int)
      = min (((h + 7) / 8 : Nat) : Int) (8 - y / 8) - max 0 (-(y / 8) - 1) := by
  unfold loopHOf loopHClipped HEIGHT
  rw [startHOf_eq y (by omega) (by omega), sRowInit_eq y (by omega) (by omega),
    loopHInit_eq h hh]
  unfold toU8
  split_ifs <;> omega

theorem sRowOf_eq (y : Int) (h1 : -1024 ≤ y) (h2 : y ≤ 1023) : sRowOf y = max (y / 8) (-1) := by
  unfold sRowOf toI8
  rw [startHOf_eq y h1 h2, sRowInit_eq y h1 h2]
  omega

theorem mulAmtOf_eq (y : Int) : mulAmtOf y = 2 ^ (y % 8).toNat := by
  unfold mulAmtOf
  rw [yOffsetOf_eq, toU8_natCast]
  apply Nat.mod_eq_of_lt
  have h : (y % 8).toNat < 8 := by omega
  calc 2 ^ (y % 8).toNat < 2 ^ 8 := Nat.pow_lt_pow_right (by norm_num) h
    _ = 256 := by norm_num

theorem startCol_eq (x : Int) (hx : -65536 < x) : (startCol x : Int) = max x 0 := by
  unfold startCol
  have := xOffsetOf_eq x hx
  omega

theorem ofsOf_eq (x y : Int) (hx : -65536 < x) :
    ofsOf x y = toU16 (sRowOf y * 128 + startCol x) := by
  unfold ofsOf WIDTH
  have := startCol_eq x hx
  have := xOffsetOf_eq x hx
  congr 1
  push_cast
  omega

/-! ## The four loops are instances of the common shape -/

theorem bodyUnmasked_eq (bitmap : Mem) (yo : Int) (mul_amt mask_data : Nat) :
    bodyUnmasked bitmap yo mul_amt mask_data
      = bodyGen yo true 0 (fun b _ d => loUnmasked bitmap mul_amt mask_data b d)
          (fun b _ d => hiUnmasked bitmap mul_amt mask_data b d) := by
  funext s; rfl

theorem bodyIsMask_eq (bitmap : Mem) (yo : Int) (mul_amt : Nat) :
    bodyIsMask bitmap yo mul_amt
      = bodyGen yo false 0 (fun b _ d => loIsMask bitmap mul_amt b d)
          (fun b _ d => hiIsMask bitmap mul_amt b d) := by
  funext s; rfl

theorem bodyIsMaskErase_eq (bitmap : Mem) (yo : Int) (mul_amt : Nat) :
    bodyIsMaskErase bitmap yo mul_amt
      = bodyGen yo true 0 (fun b _ d => loIsMaskErase bitmap mul_amt b d)
          (fun b _ d => hiIsMaskErase bitmap mul_amt b d) := by
  funext s; rfl

theorem bodyMasked_eq (bitmap mask : Mem) (yo : Int) (mul_amt : Nat) :
    bodyMasked bitmap mask yo mul_amt
      = bodyGen yo true 1 (loMasked bitmap mask mul_amt) (hiMasked bitmap mask mul_amt) := by
  funext s; rfl

theorem rowEnd_eq (w rw : Nat) : rowEnd w rw = rowEndGen 0 w rw := by
  funext s
  simp [rowEnd, rowEndGen]

theorem rowEndMasked_eq (w rw : Nat) : rowEndMasked w rw = rowEndGen 1 w rw := by
  funext s
  simp [rowEndMasked, rowEndGen]

/-! ## Geometry of a draw that is not rejected -/

theorem clip_geometry (x y : Int) (w h : Nat) (hh : h < 256) (hw : w < 256)
    (hvis : Visible x y w h) :
    -1 ≤ sRowOf y ∧ sRowOf y + loopHOf y h ≤ 8 ∧
    startCol x + renderedWidthOf x w ≤ 128 ∧
    ofsOf x y = toU16 (sRowOf y * 128 + startCol x) := by
  rw [visible_iff] at hvis
  obtain ⟨v1, v2, v3, v4⟩ := hvis
  have e1 := sRowOf_eq y (by omega) (by omega)
  have e2 := loopHOf_eq y h hh v3 v4
  have e3 := startCol_eq x (by omega)
  have e4 := renderedWidthOf_eq x w hw v1 v2
  refine ⟨by omega, by omega, by omega, ofsOf_eq x y (by omega)⟩

/-- The framebuffer byte `k` after a draw of the common shape. -/
theorem drawLoops_byte (yo : Int) (wrap : Bool) (dm : Nat) (fLo fHi : Nat → Nat → Nat → Nat)
    (F : Mem) (x y : Int) (w h : Nat) (hh : h < 256) (hw : w < 256)
    (hvis : Visible x y w h) (k : Nat) (hk : k < 1024) :
    (rowLoop (bodyGen yo wrap dm fLo fHi) (rowEndGen dm w (renderedWidthOf x w))
      (renderedWidthOf x w) (loopHOf y h)
      { sBuffer := F, sRow := sRowOf y, ofs := ofsOf x y, bofs := bofsOf x y w,
        mask_ofs := bofsOf x y w }).sBuffer k
      = byteAfter yo wrap dm fLo fHi w (renderedWidthOf x w) (sRowOf y) (startCol x)
          (bofsOf x y w) (bofsOf x y w) F (loopHOf y h) k := by
  obtain ⟨g1, g2, g3, g4⟩ := clip_geometry x y w h hh hw hvis
  exact rowLoop_gen_byte yo wrap dm fLo fHi w (renderedWidthOf x w) (sRowOf y) (startCol x)
    (loopHOf y h) _ g1 g2 g3 rfl g4 k hk (loopHOf y h) (le_refl _)

theorem drawBitmap_rejected (F : Mem) (x y : Int) (bitmap mask : Option Mem) (w h : Nat)
    (mode : DrawMode) (hvis : ¬ Visible x y w h) :
    drawBitmap F x y bitmap mask w h mode = F := by
  unfold Visible at hvis
  unfold drawBitmap
  rw [if_pos (not_not.mp hvis)]

theorem clip_arith_col (x : Int) (w q x0 rw : Nat) (hq : q < 128)
    (e3 : (x0 : Int) = max x 0)
    (e4 : (rw : Int) = min ((w : Int) - max 0 (-x)) (128 - x - max 0 (-x))) :
    (x0 ≤ q ∧ q < x0 + rw) ↔ (0 ≤ (q : Int) - x ∧ (q : Int) - x < w) := by
  omega

theorem clip_arith_col_index (x : Int) (q x0 xo : Nat)
    (e3 : (x0 : Int) = max x 0) (e6 : (xo : Int) = max 0 (-x)) (h0 : 0 ≤ (q : Int) - x) :
    xo + (q - x0) = ((q : Int) - x).toNat := by
  omega

theorem clip_arith_lo (Y S : Int) (p R L st : Nat) (hp : p < 8)
    (e1 : S = max Y (-1)) (e2 : (L : Int) = min (R : Int) (8 - Y) - max 0 (-Y - 1))
    (e5 : (st : Int) = max 0 (-Y - 1)) :
    ((0 ≤ (p : Int) - S ∧ (p : Int) - S < L) ↔ (0 ≤ (p : Int) - Y ∧ (p : Int) - Y < R)) ∧
    (0 ≤ (p : Int) - Y → ((p : Int) - Y).toNat = st + ((p : Int) - S).toNat) := by
  constructor
  · omega
  · omega

theorem clip_arith_hi (Y S : Int) (p R L st : Nat) (hp : p < 8)
    (e1 : S = max Y (-1)) (e2 : (L : Int) = min (R : Int) (8 - Y) - max 0 (-Y - 1))
    (e5 : (st : Int) = max 0 (-Y - 1)) :
    ((1 ≤ (p : Int) - S ∧ (p : Int) - S ≤ L) ↔ (1 ≤ (p : Int) - Y ∧ (p : Int) - Y ≤ R)) ∧
    (1 ≤ (p : Int) - Y → ((p : Int) - Y - 1).toNat = st + ((p : Int) - S - 1).toNat) := by
  constructor
  · omega
  · omega

/-- The closed form of a byte in sprite coordinates. -/
theorem byteAfter_clip (wrap : Bool) (dm : Nat) (fLo fHi : Nat → Nat → Nat → Nat)
    (gLo gHi : Nat → Nat → Nat) (F : Mem) (x y : Int) (w h : Nat) (hh : h < 256)
    (hw : w < 256) (hvis : Visible x y w h) (k : Nat) (hk : k < 1024)
    (hLo : ∀ e d, fLo (bofsOf x y w + e) (bofsOf x y w + dm * e) d = gLo (bofsOf x y w + e) d)
    (hHi : ∀ e d, fHi (bofsOf x y w + e) (bofsOf x y w + dm * e) d = gHi (bofsOf x y w + e) d) :
    byteAfter (yOffsetOf y) wrap dm fLo fHi w (renderedWidthOf x w) (sRowOf y) (startCol x)
        (bofsOf x y w) (bofsOf x y w) F (loopHOf y h) k
      = byteClip wrap gLo gHi w h x y F k := by
  rw [visible_iff] at hvis
  obtain ⟨v1, v2, v3, v4⟩ := hvis
  have e1 := sRowOf_eq y (by omega) (by omega)
  have e2 := loopHOf_eq y h hh v3 v4
  have e3 := startCol_eq x (by omega)
  have e4 := renderedWidthOf_eq x w hw v1 v2
  have e5 := startHOf_eq y (by omega) (by omega)
  have e6 := xOffsetOf_eq x (by omega)
  have hq : k % 128 < 128 := Nat.mod_lt _ (by norm_num)
  have hp : k / 128 < 8 := by omega
  have c_col := clip_arith_col x w (k % 128) (startCol x) (renderedWidthOf x w) hq e3 e4
  obtain ⟨c_lo, i_lo⟩ := clip_arith_lo (y / 8) (sRowOf y) (k / 128) ((h + 7) / 8)
    (loopHOf y h) (startHOf y) hp e1 e2 e5
  obtain ⟨c_hi, i_hi⟩ := clip_arith_hi (y / 8) (sRowOf y) (k / 128) ((h + 7) / 8)
    (loopHOf y h) (startHOf y) hp e1 e2 e5
  have c_hi2 : (1 ≤ ((k / 128 : Nat) : Int) - sRowOf y
        ∧ ((k / 128 : Nat) : Int) - sRowOf y ≤ (loopHOf y h : Int)
        ∧ yOffsetOf y ≠ 0 ∧ (wrap = true ∨ 128 ≤ k))
      ↔ (1 ≤ ((k / 128 : Nat) : Int) - y / 8
        ∧ ((k / 128 : Nat) : Int) - y / 8 ≤ (((h + 7) / 8 : Nat) : Int)
        ∧ y % 8 ≠ 0 ∧ (wrap = true ∨ 128 ≤ k)) := by
    rw [yOffsetOf_eq, ← and_assoc, c_hi, and_assoc]
  clear e1 e2 e4 e5 v1 v2 v3 v4 c_hi
  unfold byteAfter byteClip
  simp only [c_col, c_lo, c_hi2]
  by_cases hcol : 0 ≤ ((k % 128 : Nat) : Int) - x ∧ ((k % 128 : Nat) : Int) - x < w
  · rw [if_pos hcol, if_pos hcol]
    have i_col := clip_arith_col_index x (k % 128) (startCol x) (xOffsetOf x) e3 e6 hcol.1
    have idx_lo : 0 ≤ ((k / 128 : Nat) : Int) - y / 8 →
        bofsOf x y w + ((((k / 128 : Nat) : Int) - sRowOf y).toNat * w + (k % 128 - startCol x))
        = (((k / 128 : Nat) : Int) - y / 8).toNat * w + (((k % 128 : Nat) : Int) - x).toNat := by
      intro h0
      rw [i_lo h0, Nat.add_mul, ← i_col]
      unfold bofsOf
      ac_rfl
    have idx_hi : 1 ≤ ((k / 128 : Nat) : Int) - y / 8 →
        bofsOf x y w
          + ((((k / 128 : Nat) : Int) - sRowOf y - 1).toNat * w + (k % 128 - startCol x))
        = (((k / 128 : Nat) : Int) - y / 8 - 1).toNat * w
          + (((k % 128 : Nat) : Int) - x).toNat := by
      intro h0
      rw [i_hi h0, Nat.add_mul, ← i_col]
      unfold bofsOf
      ac_rfl
    have hv : (if 1 ≤ ((k / 128 : Nat) : Int) - y / 8
          ∧ ((k / 128 : Nat) : Int) - y / 8 ≤ (((h + 7) / 8 : Nat) : Int)
          ∧ y % 8 ≠ 0 ∧ (wrap = true ∨ 128 ≤ k) then
          fHi (bofsOf x y w + (((k / 128 : Nat) : Int) - sRowOf y - 1).toNat * w
              + (k % 128 - startCol x))
            (bofsOf x y w + dm * ((((k / 128 : Nat) : Int) - sRowOf y - 1).toNat * w
              + (k % 128 - startCol x))) (F k)
        else F k)
        = (if 1 ≤ ((k / 128 : Nat) : Int) - y / 8
          ∧ ((k / 128 : Nat) : Int) - y / 8 ≤ (((h + 7) / 8 : Nat) : Int)
          ∧ y % 8 ≠ 0 ∧ (wrap = true ∨ 128 ≤ k) then
          gHi ((((k / 128 : Nat) : Int) - y / 8 - 1).toNat * w
            + (((k % 128 : Nat) : Int) - x).toNat) (F k)
        else F k) := by
      split_ifs with hc
      · rw [Nat.add_assoc, hHi, idx_hi hc.1]
      · rfl
    rw [hv]
    by_cases hc : 0 ≤ ((k / 128 : Nat) : Int) - y / 8
        ∧ ((k / 128 : Nat) : Int) - y / 8 < (((h + 7) / 8 : Nat) : Int)
    · rw [if_pos hc, if_pos hc, Nat.add_assoc, hLo, idx_lo hc.1]
    · rw [if_neg hc, if_neg hc]
  · rw [if_neg hcol, if_neg hcol]

theorem drawBitmap_unmasked_byte (F : Mem) (x y : Int) (bitmap : Mem) (mask : Option Mem)
    (w h : Nat) (hh : h < 256) (hw : w < 256) (hvis : Visible x y w h)
    (k : Nat) (hk : k < 1024) :
    drawBitmap F x y (some bitmap) mask w h SPRITE_UNMASKED k
      = byteClip true (loUnmasked bitmap (mulAmtOf y) (not16 (0xFF * mulAmtOf y)))
          (hiUnmasked bitmap (mulAmtOf y) (not16 (0xFF * mulAmtOf y))) w h x y F k := by
  unfold drawBitmap
  rw [if_neg hvis]
  simp only []
  rw [bodyUnmasked_eq, rowEnd_eq, drawLoops_byte _ _ _ _ _ F x y w h hh hw hvis k hk]
  exact byteAfter_clip _ _ _ _ _ _ F x y w h hh hw hvis k hk (fun _ _ => rfl) (fun _ _ => rfl)

theorem drawBitmap_isMask_byte (F : Mem) (x y : Int) (bitmap : Mem) (mask : Option Mem)
    (w h : Nat) (hh : h < 256) (hw : w < 256) (hvis : Visible x y w h)
    (k : Nat) (hk : k < 1024) :
    drawBitmap F x y (some bitmap) mask w h SPRITE_IS_MASK k
      = byteClip false (loIsMask bitmap (mulAmtOf y)) (hiIsMask bitmap (mulAmtOf y))
          w h x y F k := by
  unfold drawBitmap
  rw [if_neg hvis]
  simp only []
  rw [bodyIsMask_eq, rowEnd_eq, drawLoops_byte _ _ _ _ _ F x y w h hh hw hvis k hk]
  exact byteAfter_clip _ _ _ _ _ _ F x y w h hh hw hvis k hk (fun _ _ => rfl) (fun _ _ => rfl)

theorem drawBitmap_isMaskErase_byte (F : Mem) (x y : Int) (bitmap : Mem) (mask : Option Mem)
    (w h : Nat) (hh : h < 256) (hw : w < 256) (hvis : Visible x y w h)
    (k : Nat) (hk : k < 1024) :
    drawBitmap F x y (some bitmap) mask w h SPRITE_IS_MASK_ERASE k
      = byteClip true (loIsMaskErase bitmap (mulAmtOf y)) (hiIsMaskErase bitmap (mulAmtOf y))
          w h x y F k := by
  unfold drawBitmap
  rw [if_neg hvis]
  simp only []
  rw [bodyIsMaskErase_eq, rowEnd_eq, drawLoops_byte _ _ _ _ _ F x y w h hh hw hvis k hk]
  exact byteAfter_clip _ _ _ _ _ _ F x y w h hh hw hvis k hk (fun _ _ => rfl) (fun _ _ => rfl)

theorem drawBitmap_masked_byte (F : Mem) (x y : Int) (bitmap mask : Mem)
    (w h : Nat) (hh : h < 256) (hw : w < 256) (hvis : Visible x y w h)
    (k : Nat) (hk : k < 1024) :
    drawBitmap F x y (some bitmap) (some mask) w h SPRITE_MASKED k
      = byteClip true (fun b d => loMasked bitmap mask (mulAmtOf y) b b d)
          (fun b d => hiMasked bitmap mask (mulAmtOf y) b b d) w h x y F k := by
  unfold drawBitmap
  rw [if_neg hvis]
  simp only []
  rw [bodyMasked_eq, rowEndMasked_eq, drawLoops_byte _ _ _ _ _ F x y w h hh hw hvis k hk]
  exact byteAfter_clip _ _ _ _ _ _ F x y w h hh hw hvis k hk
    (fun e d => by rw [Nat.one_mul]) (fun e d => by rw [Nat.one_mul])

/-! ## Bits of the composed bytes -/

theorem not16_eq (v : Nat) (h : v < 65536) : not16 v = 65535 - v := by
  unfold not16 toU16; omega

theorem testBit_lowByte (v t : Nat) (ht : t < 8) : (lowByte v).testBit t = v.testBit t := by
  unfold lowByte
  rw [show (256 : Nat) = 2 ^ 8 by norm_num, Nat.testBit_mod_two_pow]
  simp [ht]

theorem testBit_highByte (v t : Nat) (ht : t < 8) :
    (highByte v).testBit t = v.testBit (8 + t) := by
  unfold highByte
  rw [show (256 : Nat) = 2 ^ 8 by norm_num, Nat.testBit_mod_two_pow,
    ← Nat.shiftRight_eq_div_pow, Nat.testBit_shiftRight]
  simp [ht]

theorem testBit_not16 (v t : Nat) (h : v < 65536) (ht : t < 16) :
    (not16 v).testBit t = !(v.testBit t) := by
  rw [not16_eq v h]
  have := Nat.testBit_two_pow_sub_succ (n := 16) (x := v) (by simpa using h) t
  simpa [ht] using this

theorem testBit_not8 (b t : Nat) (hb : b < 256) (ht : t < 8) :
    (not8 b).testBit t = !(b.testBit t) := by
  unfold not8
  rw [Nat.mod_eq_of_lt hb]
  have := Nat.testBit_two_pow_sub_succ (n := 8) (x := b) (by simpa using hb) t
  simpa [ht] using this

theorem testBit_shifted (b yo t : Nat) :
    (b * 2 ^ yo).testBit t = (decide (yo ≤ t) && b.testBit (t - yo)) := by
  rw [Nat.mul_comm, Nat.testBit_mul_pow_two]

theorem testBit_byte_high (b s : Nat) (hb : b < 256) (hs : 8 ≤ s) : b.testBit s = false := by
  apply Nat.testBit_lt_two_pow
  calc b < 2 ^ 8 := by simpa using hb
    _ ≤ 2 ^ s := Nat.pow_le_pow_right (by norm_num) hs

theorem shifted_lt (b yo : Nat) (hb : b < 256) (hyo : yo < 8) : b * 2 ^ yo < 65536 := by
  have h1 : 2 ^ yo ≤ 2 ^ 7 := Nat.pow_le_pow_right (by norm_num) (by omega)
  have h2 : b * 2 ^ yo ≤ 255 * 2 ^ 7 := Nat.mul_le_mul (by omega) h1
  omega

theorem pgm_read_byte_lt (p : Mem) (i : Nat) : pgm_read_byte p i < 256 := by
  unfold pgm_read_byte; omega

theorem toU16_shifted (b yo : Nat) (hb : b < 256) (hyo : yo < 8) :
    toU16 ((b * 2 ^ yo : Nat) : Int) = b * 2 ^ yo := by
  rw [toU16_natCast, Nat.mod_eq_of_lt (shifted_lt b yo hb hyo)]

/-- Bits of the low byte of the shifted source byte. -/
theorem testBit_lowShift (b yo t : Nat) (hb : b < 256) (hyo : yo < 8) (ht : t < 8) :
    (lowByte (toU16 ((b * 2 ^ yo : Nat) : Int))).testBit t
      = (decide (yo ≤ t) && b.testBit (t - yo)) := by
  rw [testBit_lowByte _ _ ht, toU16_shifted b yo hb hyo, testBit_shifted]

/-- Bits of the high byte of the shifted source byte. -/
theorem testBit_highShift (b yo t : Nat) (hb : b < 256) (hyo : yo < 8) (ht : t < 8) :
    (highByte (toU16 ((b * 2 ^ yo : Nat) : Int))).testBit t
      = (decide (t < yo) && b.testBit (8 + t - yo)) := by
  rw [testBit_highByte _ _ ht, toU16_shifted b yo hb hyo, testBit_shifted]
  by_cases h : t < yo
  · simp [h]; omega
  · simp [h, testBit_byte_high b (8 + t - yo) hb (by omega)]

/-- Bits of the low byte of the complemented shifted mask byte. -/
theorem testBit_lowNotShift (m yo t : Nat) (hm : m < 256) (hyo : yo < 8) (ht : t < 8) :
    (lowByte (not16 (m * 2 ^ yo))).testBit t
      = !(decide (yo ≤ t) && m.testBit (t - yo)) := by
  rw [testBit_lowByte _ _ ht, testBit_not16 _ _ (shifted_lt m yo hm hyo) (by omega),
    testBit_shifted]

/-- Bits of the high byte of the complemented shifted mask byte. -/
theorem testBit_highNotShift (m yo t : Nat) (hm : m < 256) (hyo : yo < 8) (ht : t < 8) :
    (highByte (not16 (m * 2 ^ yo))).testBit t
      = !(decide (t < yo) && m.testBit (8 + t - yo)) := by
  rw [testBit_highByte _ _ ht, testBit_not16 _ _ (shifted_lt m yo hm hyo) (by omega),
    testBit_shifted]
  by_cases h : t < yo
  · simp [h]; omega
  · simp [h, testBit_byte_high m (8 + t - yo) hm (by omega)]

theorem testBit_255 (s : Nat) : (255 : Nat).testBit s = decide (s < 8) := by
  have := Nat.testBit_two_pow_sub_one 8 s
  simpa using this

/-- Bits of a byte in sprite coordinates, for a mode whose byte compositions act bit by
bit through `e`. -/
theorem byteClip_testBit (wrap : Bool) (gLo gHi : Nat → Nat → Nat)
    (e : Bool → Nat → Nat → Bool) (w h : Nat) (x y : Int) (F : Mem) (k t : Nat)
    (ht8 : t < 8)
    (hLo : ∀ idx d, (gLo idx d).testBit t
      = if (y % 8).toNat ≤ t then e (d.testBit t) idx (t - (y % 8).toNat) else d.testBit t)
    (hHi : ∀ idx d, (gHi idx d).testBit t
      = if t < (y % 8).toNat then e (d.testBit t) idx (8 + t - (y % 8).toNat)
        else d.testBit t) :
    (byteClip wrap gLo gHi w h x y F k).testBit t = bitClip wrap e w h x y F k t := by
  unfold byteClip bitClip
  simp only []
  by_cases hcol : 0 ≤ ((k % 128 : Nat) : Int) - x ∧ ((k % 128 : Nat) : Int) - x < w
  · rw [if_pos hcol]
    by_cases ht : (y % 8).toNat ≤ t
    · -- the bit belongs to the low byte of source row `r`
      have hv : ∀ c : Prop, ∀ _ : Decidable c, ∀ idx,
          (if c then gHi idx (F k) else F k).testBit t = (F k).testBit t := by
        intro c _ idx
        by_cases hc : c
        · rw [if_pos hc, hHi, if_neg (by omega)]
        · rw [if_neg hc]
      by_cases hlo : 0 ≤ ((k / 128 : Nat) : Int) - y / 8
          ∧ ((k / 128 : Nat) : Int) - y / 8 < (((h + 7) / 8 : Nat) : Int)
      · rw [if_pos hlo, hLo, if_pos ht, hv,
          if_pos ⟨hcol.1, hcol.2, by omega, by omega, Or.inr (Or.inr ht)⟩]
        have a1 : (8 * ((k / 128 : Nat) : Int) + t - y).toNat / 8
            = (((k / 128 : Nat) : Int) - y / 8).toNat := by omega
        have a2 : (8 * ((k / 128 : Nat) : Int) + t - y).toNat % 8 = t - (y % 8).toNat := by
          omega
        rw [a1, a2]
      · rw [if_neg hlo, hv, if_neg (fun hh => hlo ⟨by omega, by omega⟩)]
    · -- the bit belongs to the high byte of source row `r - 1`
      have hl : ∀ c : Prop, ∀ _ : Decidable c, ∀ idx v,
          (if c then gLo idx v else v).testBit t = v.testBit t := by
        intro c _ idx v
        by_cases hc : c
        · rw [if_pos hc, hLo, if_neg ht]
        · rw [if_neg hc]
      rw [hl]
      by_cases hhi : 1 ≤ ((k / 128 : Nat) : Int) - y / 8
          ∧ ((k / 128 : Nat) : Int) - y / 8 ≤ (((h + 7) / 8 : Nat) : Int)
          ∧ y % 8 ≠ 0 ∧ (wrap = true ∨ 128 ≤ k)
      · have hw' : wrap = true ∨ 128 ≤ k ∨ (y % 8).toNat ≤ t := by
          rcases hhi.2.2.2 with h1 | h1
          · exact Or.inl h1
          · exact Or.inr (Or.inl h1)
        rw [if_pos hhi, hHi, if_pos (by omega),
          if_pos ⟨hcol.1, hcol.2, by omega, by omega, hw'⟩]
        have a1 : (8 * ((k / 128 : Nat) : Int) + t - y).toNat / 8
            = (((k / 128 : Nat) : Int) - y / 8 - 1).toNat := by omega
        have a2 : (8 * ((k / 128 : Nat) : Int) + t - y).toNat % 8
            = 8 + t - (y % 8).toNat := by
          omega
        rw [a1, a2]
      · rw [if_neg hhi, if_neg]
        rintro ⟨-, -, b1, b2, b3⟩
        apply hhi
        refine ⟨by omega, by omega, by omega, ?_⟩
        rcases b3 with b3 | b3 | b3
        · exact Or.inl b3
        · exact Or.inr b3
        · omega
  · rw [if_neg hcol, if_neg (fun hh => hcol ⟨hh.1, hh.2.1⟩)]

theorem yo_lt (y : Int) : (y % 8).toNat < 8 := by omega

theorem loMasked_testBit (bitmap mask : Mem) (y : Int) (t : Nat) (ht : t < 8) (idx d : Nat) :
    (loMasked bitmap mask (mulAmtOf y) idx idx d).testBit t
      = if (y % 8).toNat ≤ t then effMasked bitmap mask (d.testBit t) idx (t - (y % 8).toNat)
        else d.testBit t := by
  unfold loMasked effMasked
  rw [mulAmtOf_eq, Nat.testBit_lor, Nat.testBit_land,
    testBit_lowShift _ _ _ (pgm_read_byte_lt _ _) (yo_lt y) ht,
    testBit_lowNotShift _ _ _ (pgm_read_byte_lt _ _) (yo_lt y) ht]
  by_cases h : (y % 8).toNat ≤ t <;> simp [h]

theorem hiMasked_testBit (bitmap mask : Mem) (y : Int) (t : Nat) (ht : t < 8) (idx d : Nat) :
    (hiMasked bitmap mask (mulAmtOf y) idx idx d).testBit t
      = if t < (y % 8).toNat then
          effMasked bitmap mask (d.testBit t) idx (8 + t - (y % 8).toNat)
        else d.testBit t := by
  unfold hiMasked effMasked
  rw [mulAmtOf_eq, Nat.testBit_lor, Nat.testBit_land,
    testBit_highShift _ _ _ (pgm_read_byte_lt _ _) (yo_lt y) ht,
    testBit_highNotShift _ _ _ (pgm_read_byte_lt _ _) (yo_lt y) ht]
  by_cases h : t < (y % 8).toNat <;> simp [h]

theorem loUnmasked_testBit (bitmap : Mem) (y : Int) (t : Nat) (ht : t < 8) (idx d : Nat) :
    (loUnmasked bitmap (mulAmtOf y) (not16 (0xFF * mulAmtOf y)) idx d).testBit t
      = if (y % 8).toNat ≤ t then effUnmasked bitmap (d.testBit t) idx (t - (y % 8).toNat)
        else d.testBit t := by
  unfold loUnmasked effUnmasked
  rw [mulAmtOf_eq, Nat.testBit_lor, Nat.testBit_land,
    testBit_lowShift _ _ _ (pgm_read_byte_lt _ _) (yo_lt y) ht,
    testBit_lowNotShift _ _ _ (by norm_num) (yo_lt y) ht, testBit_255]
  by_cases h : (y % 8).toNat ≤ t
  · have : t - (y % 8).toNat < 8 := by omega
    simp [h, this]
  · simp [h]

theorem hiUnmasked_testBit (bitmap : Mem) (y : Int) (t : Nat) (ht : t < 8) (idx d : Nat) :
    (hiUnmasked bitmap (mulAmtOf y) (not16 (0xFF * mulAmtOf y)) idx d).testBit t
      = if t < (y % 8).toNat then effUnmasked bitmap (d.testBit t) idx (8 + t - (y % 8).toNat)
        else d.testBit t := by
  unfold hiUnmasked effUnmasked
  rw [mulAmtOf_eq, Nat.testBit_lor, Nat.testBit_land,
    testBit_highShift _ _ _ (pgm_read_byte_lt _ _) (yo_lt y) ht,
    testBit_highNotShift _ _ _ (by norm_num) (yo_lt y) ht, testBit_255]
  by_cases h : t < (y % 8).toNat
  · have : 8 + t - (y % 8).toNat < 8 := by omega
    simp [h, this]
  · simp [h]

theorem loIsMask_testBit (bitmap : Mem) (y : Int) (t : Nat) (ht : t < 8) (idx d : Nat) :
    (loIsMask bitmap (mulAmtOf y) idx d).testBit t
      = if (y % 8).toNat ≤ t then effIsMask bitmap (d.testBit t) idx (t - (y % 8).toNat)
        else d.testBit t := by
  unfold loIsMask effIsMask
  rw [mulAmtOf_eq, Nat.testBit_lor,
    testBit_lowShift _ _ _ (pgm_read_byte_lt _ _) (yo_lt y) ht]
  by_cases h : (y % 8).toNat ≤ t <;> simp [h]

theorem hiIsMask_testBit (bitmap : Mem) (y : Int) (t : Nat) (ht : t < 8) (idx d : Nat) :
    (hiIsMask bitmap (mulAmtOf y) idx d).testBit t
      = if t < (y % 8).toNat then effIsMask bitmap (d.testBit t) idx (8 + t - (y % 8).toNat)
        else d.testBit t := by
  unfold hiIsMask effIsMask
  rw [mulAmtOf_eq, Nat.testBit_lor,
    testBit_highShift _ _ _ (pgm_read_byte_lt _ _) (yo_lt y) ht]
  by_cases h : t < (y % 8).toNat <;> simp [h]

theorem lowByte_lt (v : Nat) : lowByte v < 256 := by unfold lowByte; omega

theorem highByte_lt (v : Nat) : highByte v < 256 := by unfold highByte; omega

theorem loIsMaskErase_testBit (bitmap : Mem) (y : Int) (t : Nat) (ht : t < 8) (idx d : Nat) :
    (loIsMaskErase bitmap (mulAmtOf y) idx d).testBit t
      = if (y % 8).toNat ≤ t then effIsMaskErase bitmap (d.testBit t) idx (t - (y % 8).toNat)
        else d.testBit t := by
  unfold loIsMaskErase effIsMaskErase
  rw [mulAmtOf_eq, Nat.testBit_land, testBit_not8 _ _ (lowByte_lt _) ht,
    testBit_lowShift _ _ _ (pgm_read_byte_lt _ _) (yo_lt y) ht]
  by_cases h : (y % 8).toNat ≤ t <;> simp [h]

theorem hiIsMaskErase_testBit (bitmap : Mem) (y : Int) (t : Nat) (ht : t < 8) (idx d : Nat) :
    (hiIsMaskErase bitmap (mulAmtOf y) idx d).testBit t
      = if t < (y % 8).toNat then
          effIsMaskErase bitmap (d.testBit t) idx (8 + t - (y % 8).toNat)
        else d.testBit t := by
  unfold hiIsMaskErase effIsMaskErase
  rw [mulAmtOf_eq, Nat.testBit_land, testBit_not8 _ _ (highByte_lt _) ht,
    testBit_highShift _ _ _ (pgm_read_byte_lt _ _) (yo_lt y) ht]
  by_cases h : t < (y % 8).toNat <;> simp [h]

/-! ## Bits of the framebuffer after a draw that is not rejected -/

theorem drawBitmap_masked_bit (F : Mem) (x y : Int) (bitmap mask : Mem)
    (w h : Nat) (hh : h < 256) (hw : w < 256) (hvis : Visible x y w h)
    (k t : Nat) (hk : k < 1024) (ht : t < 8) :
    (drawBitmap F x y (some bitmap) (some mask) w h SPRITE_MASKED k).testBit t
      = bitClip true (effMasked bitmap mask) w h x y F k t := by
  rw [drawBitmap_masked_byte F x y bitmap mask w h hh hw hvis k hk]
  exact byteClip_testBit _ _ _ _ w h x y F k t ht
    (fun idx d => loMasked_testBit bitmap mask y t ht idx d)
    (fun idx d => hiMasked_testBit bitmap mask y t ht idx d)

theorem drawBitmap_unmasked_bit (F : Mem) (x y : Int) (bitmap : Mem) (mask : Option Mem)
    (w h : Nat) (hh : h < 256) (hw : w < 256) (hvis : Visible x y w h)
    (k t : Nat) (hk : k < 1024) (ht : t < 8) :
    (drawBitmap F x y (some bitmap) mask w h SPRITE_UNMASKED k).testBit t
      = bitClip true (effUnmasked bitmap) w h x y F k t := by
  rw [drawBitmap_unmasked_byte F x y bitmap mask w h hh hw hvis k hk]
  exact byteClip_testBit _ _ _ _ w h x y F k t ht
    (fun idx d => loUnmasked_testBit bitmap y t ht idx d)
    (fun idx d => hiUnmasked_testBit bitmap y t ht idx d)

theorem drawBitmap_isMask_bit (F : Mem) (x y : Int) (bitmap : Mem) (mask : Option Mem)
    (w h : Nat) (hh : h < 256) (hw : w < 256) (hvis : Visible x y w h)
    (k t : Nat) (hk : k < 1024) (ht : t < 8) :
    (drawBitmap F x y (some bitmap) mask w h SPRITE_IS_MASK k).testBit t
      = bitClip false (effIsMask bitmap) w h x y F k t := by
  rw [drawBitmap_isMask_byte F x y bitmap mask w h hh hw hvis k hk]
  exact byteClip_testBit _ _ _ _ w h x y F k t ht
    (fun idx d => loIsMask_testBit bitmap y t ht idx d)
    (fun idx d => hiIsMask_testBit bitmap y t ht idx d)

theorem drawBitmap_isMaskErase_bit (F : Mem) (x y : Int) (bitmap : Mem) (mask : Option Mem)
    (w h : Nat) (hh : h < 256) (hw : w < 256) (hvis : Visible x y w h)
    (k t : Nat) (hk : k < 1024) (ht : t < 8) :
    (drawBitmap F x y (some bitmap) mask w h SPRITE_IS_MASK_ERASE k).testBit t
      = bitClip true (effIsMaskErase bitmap) w h x y F k t := by
  rw [drawBitmap_isMaskErase_byte F x y bitmap mask w h hh hw hvis k hk]
  exact byteClip_testBit _ _ _ _ w h x y F k t ht
    (fun idx d => loIsMaskErase_testBit bitmap y t ht idx d)
    (fun idx d => hiIsMaskErase_testBit bitmap y t ht idx d)

/-! ## `Sprites::draw` -/

theorem advance_zero (p : Mem) : advance p 0 = p := by
  funext i
  simp [advance]

theorem advance_advance (p : Mem) (a b : Nat) : advance (advance p a) b = advance p (a + b) := by
  funext i
  simp [advance, Nat.add_assoc]

theorem pgm_read_byte_advance (p : Mem) (n i : Nat) :
    pgm_read_byte (advance p n) i = pgm_read_byte p (n + i) := rfl

/-- With frame 0 and mask frame 0, `draw` hands the pixel data after the two header bytes
to `drawBitmap`, with the header bytes as width and height. -/
theorem draw_frame_zero (F : Mem) (x y : Int) (res : Mem) (mask : Option Mem)
    (mode : DrawMode) (hmode : mode ≠ SPRITE_AUTO_MODE) :
    draw F x y (some res) 0 mask 0 mode
      = drawBitmap F x y (some (advance res 2)) mask (pgm_read_byte res 0)
          (pgm_read_byte res 1) mode := by
  unfold draw
  simp [hmode]

theorem byte_index (y j x i : Nat) (hx : x + i < 128) :
    ((y + j) / 8 * 128 + (x + i)) % 128 = x + i ∧ ((y + j) / 8 * 128 + (x + i)) / 128 = (y + j) / 8 := by
  omega

/-! ## C1 -/

/-- C1: with `WIDTH = 128` and `HEIGHT = 64`, for a bitmap resource of width `w ≥ 1` and
height `h ≥ 1` (its two header bytes) drawn by `drawOverwrite` (frame 0) at a position with
`0 ≤ x`, `x + w ≤ 128`, `0 ≤ y`, `y + h ≤ 64`, on any initial framebuffer, the framebuffer
pixel at `(x + i, y + j)`, bit `(y + j) mod 8` of byte `((y + j) / 8) * 128 + x + i`, equals
bit `j mod 8` of pixel-data byte `(j / 8) * w + i` (resource byte `2 + (j / 8) * w + i`),
for all `i < w` and `j < h`. -/
theorem C1_drawOverwrite_reproduces_bitmap (F res : Mem) (x y i j : Nat)
    (_hw : 1 ≤ pgm_read_byte res 0) (_hh : 1 ≤ pgm_read_byte res 1)
    (hx : x + pgm_read_byte res 0 ≤ 128) (hy : y + pgm_read_byte res 1 ≤ 64)
    (hi : i < pgm_read_byte res 0) (hj : j < pgm_read_byte res 1) :
    (drawOverwrite F x y (some res) 0 ((y + j) / 8 * 128 + (x + i))).testBit ((y + j) % 8)
      = (pgm_read_byte res (2 + (j / 8 * pgm_read_byte res 0 + i))).testBit (j % 8) := by
  have hw' := pgm_read_byte_lt res 0
  have hh' := pgm_read_byte_lt res 1
  have hvis : Visible (x : Int) (y : Int) (pgm_read_byte res 0) (pgm_read_byte res 1) := by
    rw [visible_iff]; omega
  obtain ⟨b1, b2⟩ := byte_index y j x i (by omega)
  unfold drawOverwrite SPRITE_OVERWRITE
  rw [draw_frame_zero F x y res none _ (by decide),
    drawBitmap_unmasked_bit F x y (advance res 2) none _ _ hh' hw' hvis _ _ (by omega) (by omega)]
  unfold bitClip
  simp only []
  rw [b1, b2]
  have c1 : ((x + i : Nat) : Int) - (x : Int) = (i : Nat) := by push_cast; omega
  have c2 : 8 * (((y + j) / 8 : Nat) : Int) + (((y + j) % 8 : Nat) : Int) - (y : Int)
      = (j : Nat) := by omega
  rw [c1, c2, if_pos ⟨by omega, by omega, by omega, by omega, Or.inl (by trivial)⟩]
  unfold effUnmasked
  rw [pgm_read_byte_advance, Int.toNat_ofNat, Int.toNat_ofNat]

theorem C1_drawOverwrite_reproduces_bitmap_witness :
    (1 ≤ pgm_read_byte rampSprite 0 ∧ 1 ≤ pgm_read_byte rampSprite 1
      ∧ 4 + pgm_read_byte rampSprite 0 ≤ 128 ∧ 10 + pgm_read_byte rampSprite 1 ≤ 64
      ∧ 2 < pgm_read_byte rampSprite 0 ∧ 3 < pgm_read_byte rampSprite 1)
    ∧ (drawOverwrite litBuffer ((4 : Nat) : Int) ((10 : Nat) : Int) (some rampSprite) 0
        ((10 + 3) / 8 * 128 + (4 + 2))).testBit ((10 + 3) % 8)
      = (pgm_read_byte rampSprite
          (2 + (3 / 8 * pgm_read_byte rampSprite 0 + 2))).testBit (3 % 8) :=
  ⟨by decide, C1_drawOverwrite_reproduces_bitmap litBuffer rampSprite 4 10 2 3
    (by decide) (by decide) (by decide) (by decide) (by decide) (by decide)⟩

/-! ## C3 -/

/-- C3: for every draw mode, every width and height and every position `(x, y)` such that
the rectangle `[x, x + w) x [y, y + h)` does not meet `[0, WIDTH) x [0, HEIGHT)`
(`x + w ≤ 0`, or `x ≥ WIDTH`, or `y + h ≤ 0`, or `y ≥ HEIGHT`), `drawBitmap` returns with
every byte of the memory at `sBuffer` equal to its value before the call. -/
theorem C3_offscreen_draw_is_noop (F : Mem) (x y : Int) (bitmap mask : Option Mem)
    (w h : Nat) (mode : DrawMode)
    (hout : x + w ≤ 0 ∨ x ≥ (WIDTH : Int) ∨ y + h ≤ 0 ∨ y ≥ (HEIGHT : Int)) :
    ∀ k, drawBitmap F x y bitmap mask w h mode k = F k := by
  intro k
  rw [drawBitmap_rejected]
  rw [visible_iff]
  unfold WIDTH HEIGHT at hout
  push_cast at hout
  omega

theorem C3_offscreen_draw_is_noop_witness :
    ((128 : Int) + (8 : Nat) ≤ 0 ∨ (128 : Int) ≥ (WIDTH : Int) ∨ (0 : Int) + (8 : Nat) ≤ 0
        ∨ (0 : Int) ≥ (HEIGHT : Int))
      ∧ ∀ k, drawBitmap blankBuffer 128 0 (some (advance solidSprite 2)) none 8 8
          SPRITE_UNMASKED k = blankBuffer k :=
  ⟨by decide, C3_offscreen_draw_is_noop blankBuffer 128 0 (some (advance solidSprite 2))
    none 8 8 SPRITE_UNMASKED (by decide)⟩

/-! ## C8 -/

/-- C8: `draw` in mode `SPRITE_AUTO_MODE` gives the framebuffer of the same call in mode
`SPRITE_MASKED` when a non-null mask is supplied, and of the same call in mode
`SPRITE_UNMASKED` when the mask is null, for every bitmap, frame indices, position and
initial framebuffer. -/
theorem C8_auto_mode_resolution (F : Mem) (x y : Int) (bitmap : Option Mem) (mask : Mem)
    (frame sprite_frame : Nat) :
    draw F x y bitmap frame (some mask) sprite_frame SPRITE_AUTO_MODE
        = draw F x y bitmap frame (some mask) sprite_frame SPRITE_MASKED
      ∧ draw F x y bitmap frame none sprite_frame SPRITE_AUTO_MODE
        = draw F x y bitmap frame none sprite_frame SPRITE_UNMASKED := by
  cases bitmap with
  | none => exact ⟨rfl, rfl⟩
  | some res =>
    unfold draw
    constructor
    · by_cases hf : frame > 0 ∨ sprite_frame > 0 <;> simp [hf]
    · by_cases hf : frame > 0 ∨ sprite_frame > 0 <;> simp [hf]

/-! ## C9 -/

theorem drawBitmap_plus_mask (F : Mem) (x y : Int) (bitmap mask : Option Mem) (w h : Nat) :
    drawBitmap F x y bitmap mask w h SPRITE_PLUS_MASK = F := by
  unfold drawBitmap
  split_ifs
  · rfl
  · cases bitmap <;> rfl

/-- C9: drawing in mode `SPRITE_PLUS_MASK` (`drawPlusMask`) is a no-op: for every bitmap
resource, frame index, position and initial framebuffer, every byte of the memory at
`sBuffer` is unchanged after the call. -/
theorem C9_drawPlusMask_is_noop (F : Mem) (x y : Int) (bitmap : Option Mem) (frame : Nat) :
    ∀ k, drawPlusMask F x y bitmap frame k = F k := by
  intro k
  unfold drawPlusMask draw
  cases bitmap with
  | none => rfl
  | some res =>
    have hm : (if SPRITE_PLUS_MASK = SPRITE_AUTO_MODE then
        (if (none : Option Mem).isNone then SPRITE_UNMASKED else SPRITE_MASKED)
        else SPRITE_PLUS_MASK) = SPRITE_PLUS_MASK := rfl
    simp only [drawBitmap_plus_mask, if_true, ite_self, hm]

/-! ## What `draw` hands to `drawBitmap` -/

theorem option_map_advance_zero (mask : Option Mem) :
    mask.map (fun m => advance m 0) = mask := by
  cases mask with
  | none => rfl
  | some m => simp [advance_zero]

theorem option_isNone_map (mask : Option Mem) (g : Mem → Mem) :
    (mask.map g).isNone = mask.isNone := by
  cases mask <;> rfl

/-- In every mode but `SPRITE_PLUS_MASK`, `draw` calls `drawBitmap` on the bitmap bytes from
offset `2 + frame * frame_offset` on and the mask bytes from offset
`sprite_frame * frame_offset` on, with the header bytes as width and height. -/
theorem draw_eq (F : Mem) (x y : Int) (res : Mem) (frame : Nat) (mask : Option Mem)
    (sprite_frame : Nat) (mode : DrawMode) (hmode : mode ≠ SPRITE_PLUS_MASK) :
    draw F x y (some res) frame mask sprite_frame mode
      = drawBitmap F x y
          (some (advance res
            (2 + frame * frameOffset (pgm_read_byte res 0) (pgm_read_byte res 1))))
          (mask.map (fun m =>
            advance m (sprite_frame * frameOffset (pgm_read_byte res 0) (pgm_read_byte res 1))))
          (pgm_read_byte res 0) (pgm_read_byte res 1) (resolveMode mode mask) := by
  unfold draw resolveMode
  simp only [if_neg hmode]
  by_cases hf : frame > 0 ∨ sprite_frame > 0
  · simp only [if_pos hf, advance_advance, option_isNone_map]
  · have h1 : frame = 0 := by omega
    have h2 : sprite_frame = 0 := by omega
    subst h1 h2
    simp only [if_neg hf, Nat.zero_mul, Nat.add_zero, option_map_advance_zero]

/-- The `frame_offset` the code computes (line 51) is `width * ceil(height / 8)`. -/
theorem frameOffset_eq (width height : Nat) :
    frameOffset width height = width * ((height + 7) / 8) := by
  unfold frameOffset
  congr 1
  split_ifs <;> omega

theorem frameResource_header (res : Mem) (f : Nat) :
    pgm_read_byte (frameResource res f) 0 = pgm_read_byte res 0
      ∧ pgm_read_byte (frameResource res f) 1 = pgm_read_byte res 1 := by
  unfold pgm_read_byte frameResource
  simp

theorem frameResource_data (res : Mem) (f : Nat) :
    advance (frameResource res f) 2
      = advance res (2 + f * (pgm_read_byte res 0 * ((pgm_read_byte res 1 + 7) / 8))) := by
  funext i
  unfold advance frameResource
  rw [if_neg (by omega)]
  congr 1
  omega

/-! ## C6 -/

/-- C6: for every draw mode other than `SPRITE_PLUS_MASK`, every bitmap resource with header
`(w, h)` and every frame index `f`, `draw` with frame `f` reads its pixel data from resource
byte offset `2 + f * w * ceil(h / 8)` on (`ceil(h / 8)` written `(h + 7) / 8`): the frame
stride the code computes is `w * ceil(h / 8)`, and the resulting framebuffer is the one of
drawing, with frame 0, the resource made of the same two header bytes followed by the bytes
from that offset on.  So the result does not depend on the bytes of the frames before `f`:
two resources with the same header that agree from offset `2 + f * w * ceil(h / 8)` on give
the same framebuffer.  (In `SPRITE_MASKED` mode the mask is taken non-null, as the mode
needs.) -/
theorem C6_frame_offset (F : Mem) (x y : Int) (res : Mem) (f : Nat) (mask : Option Mem)
    (sprite_frame : Nat) (mode : DrawMode) (hmode : mode ≠ SPRITE_PLUS_MASK)
    (_hmask : mode = SPRITE_MASKED → mask.isSome = true) :
    frameOffset (pgm_read_byte res 0) (pgm_read_byte res 1)
        = pgm_read_byte res 0 * ((pgm_read_byte res 1 + 7) / 8)
      ∧ draw F x y (some res) f mask sprite_frame mode
        = draw F x y (some (frameResource res f)) 0 mask sprite_frame mode
      ∧ ∀ res2 : Mem, res2 0 = res 0 → res2 1 = res 1 →
          (∀ i, res2 (2 + f * (pgm_read_byte res 0 * ((pgm_read_byte res 1 + 7) / 8)) + i)
            = res (2 + f * (pgm_read_byte res 0 * ((pgm_read_byte res 1 + 7) / 8)) + i)) →
          draw F x y (some res2) f mask sprite_frame mode
            = draw F x y (some res) f mask sprite_frame mode := by
  refine ⟨frameOffset_eq _ _, ?_, ?_⟩
  · obtain ⟨e0, e1⟩ := frameResource_header res f
    rw [draw_eq F x y res f mask sprite_frame mode hmode,
      draw_eq F x y (frameResource res f) 0 mask sprite_frame mode hmode, e0, e1,
      Nat.zero_mul, Nat.add_zero, frameResource_data, frameOffset_eq]
  · intro res2 h0 h1 hrest
    have e0 : pgm_read_byte res2 0 = pgm_read_byte res 0 := by unfold pgm_read_byte; rw [h0]
    have e1 : pgm_read_byte res2 1 = pgm_read_byte res 1 := by unfold pgm_read_byte; rw [h1]
    rw [draw_eq F x y res f mask sprite_frame mode hmode,
      draw_eq F x y res2 f mask sprite_frame mode hmode, e0, e1, frameOffset_eq]
    have e2 : advance res2 (2 + f * (pgm_read_byte res 0 * ((pgm_read_byte res 1 + 7) / 8)))
        = advance res (2 + f * (pgm_read_byte res 0 * ((pgm_read_byte res 1 + 7) / 8))) := by
      funext i
      exact hrest i
    rw [e2]

theorem C6_frame_offset_witness :
    (SPRITE_UNMASKED ≠ SPRITE_PLUS_MASK
      ∧ (SPRITE_UNMASKED = SPRITE_MASKED → (none : Option Mem).isSome = true))
      ∧ (frameOffset (pgm_read_byte twoFrameSprite 0) (pgm_read_byte twoFrameSprite 1)
          = pgm_read_byte twoFrameSprite 0 * ((pgm_read_byte twoFrameSprite 1 + 7) / 8)
        ∧ draw blankBuffer 4 8 (some twoFrameSprite) 1 none 0 SPRITE_UNMASKED
          = draw blankBuffer 4 8 (some (frameResource twoFrameSprite 1)) 0 none 0
              SPRITE_UNMASKED
        ∧ ∀ res2 : Mem, res2 0 = twoFrameSprite 0 → res2 1 = twoFrameSprite 1 →
          (∀ i, res2 (2 + 1 * (pgm_read_byte twoFrameSprite 0
              * ((pgm_read_byte twoFrameSprite 1 + 7) / 8)) + i)
            = twoFrameSprite (2 + 1 * (pgm_read_byte twoFrameSprite 0
              * ((pgm_read_byte twoFrameSprite 1 + 7) / 8)) + i)) →
          draw blankBuffer 4 8 (some res2) 1 none 0 SPRITE_UNMASKED
            = draw blankBuffer 4 8 (some twoFrameSprite) 1 none 0 SPRITE_UNMASKED)
      ∧ (draw blankBuffer 4 8 (some twoFrameSprite) 1 none 0 SPRITE_UNMASKED (1 * 128 + 4) = 101
        ∧ draw blankBuffer 4 8 (some twoFrameSprite) 1 none 0 SPRITE_UNMASKED (2 * 128 + 4) = 109
        ∧ twoFrameSprite (2 + 1 * (8 * ((12 + 7) / 8)) + 0) = 101
        ∧ twoFrameSprite (2 + 1 * (8 * ((12 + 7) / 8)) + 8) = 109) :=
  ⟨by decide, C6_frame_offset blankBuffer 4 8 twoFrameSprite 1 none 0 SPRITE_UNMASKED
    (by decide) (by decide), by decide⟩

/-! ## C7 -/

theorem byteClip_outside_columns (wrap : Bool) (gLo gHi : Nat → Nat → Nat) (w h : Nat)
    (x y : Int) (F : Mem) (k : Nat)
    (hcol : ¬ (0 ≤ ((k % 128 : Nat) : Int) - x ∧ ((k % 128 : Nat) : Int) - x < w)) :
    byteClip wrap gLo gHi w h x y F k = F k := by
  unfold byteClip
  simp only []
  rw [if_neg hcol]

/-- In every mode, a framebuffer byte whose column lies outside `[x, x + w)` is left as it
is. -/
theorem drawBitmap_outside_columns (F : Mem) (x y : Int) (bitmap : Mem) (mask : Option Mem)
    (w h : Nat) (hh : h < 256) (hw : w < 256) (mode : DrawMode) (k : Nat) (hk : k < 1024)
    (hcol : ¬ (0 ≤ ((k % 128 : Nat) : Int) - x ∧ ((k % 128 : Nat) : Int) - x < w)) :
    drawBitmap F x y (some bitmap) mask w h mode k = F k := by
  by_cases hvis : Visible x y w h
  · cases mode with
    | SPRITE_MASKED =>
      cases mask with
      | none =>
        unfold drawBitmap
        rw [if_neg hvis]
      | some m =>
        rw [drawBitmap_masked_byte F x y bitmap m w h hh hw hvis k hk]
        exact byteClip_outside_columns _ _ _ w h x y F k hcol
    | SPRITE_UNMASKED =>
      rw [drawBitmap_unmasked_byte F x y bitmap mask w h hh hw hvis k hk]
      exact byteClip_outside_columns _ _ _ w h x y F k hcol
    | SPRITE_PLUS_MASK => rw [drawBitmap_plus_mask]
    | SPRITE_IS_MASK =>
      rw [drawBitmap_isMask_byte F x y bitmap mask w h hh hw hvis k hk]
      exact byteClip_outside_columns _ _ _ w h x y F k hcol
    | SPRITE_IS_MASK_ERASE =>
      rw [drawBitmap_isMaskErase_byte F x y bitmap mask w h hh hw hvis k hk]
      exact byteClip_outside_columns _ _ _ w h x y F k hcol
    | SPRITE_AUTO_MODE =>
      unfold drawBitmap
      rw [if_neg hvis]
  · rw [drawBitmap_rejected F x y _ mask w h mode hvis]

/-! ## C2 -/

/-- C2, as stated, fails: for the 8 by 8 sprite whose column `c` holds the byte `c + 1`,
drawn at `x = -3`, `y = 0` on a blank framebuffer, the five bytes written on page 0 are the
sprite columns 3 to 7, not the sprite columns 0 to 4. -/
theorem C2_counterexample :
    (∀ c, c < 5 → drawOverwrite blankBuffer (-3) 0 (some rampSprite) 0 c
        = pgm_read_byte rampSprite (2 + (c + 3)))
      ∧ ¬ (∀ c, c < 5 → drawOverwrite blankBuffer (-3) 0 (some rampSprite) 0 c
        = pgm_read_byte rampSprite (2 + c)) := by
  decide

/-- C2, amended: for a sprite of width 8 drawn at `x = -3` (vertically on-screen,
`WIDTH = 128`), three source columns are skipped and five are rendered (`xOffset = 3`,
`rendered_width = 5`, the source is read from index 3 of its first page-row on); exactly
five columns are written to the framebuffer, the screen columns 0 to 4, and the source
bytes used for them are the sprite columns 3 to 7 of each source page-row: after an
Unmasked draw the pixel `(c, y + j)` is bit `j` of sprite column `c + 3`, and in every mode
(with a non-null mask in `SPRITE_MASKED` mode) each framebuffer byte of a column from 5 on
is unchanged. -/
theorem C2_left_clip_uses_columns_3_to_7 (F bitmap : Mem) (y h : Nat)
    (hh : 1 ≤ h) (hy : y + h ≤ 64) :
    xOffsetOf (-3) = 3 ∧ renderedWidthOf (-3) 8 = 5 ∧ bofsOf (-3) (y : Int) 8 = 3
      ∧ (∀ c j, c < 5 → j < h →
          pixel (drawBitmap F (-3) y (some bitmap) none 8 h SPRITE_UNMASKED) c (y + j)
            = srcBit bitmap 8 (c + 3) j)
      ∧ (∀ (mode : DrawMode) (mask : Option Mem) (k : Nat),
          (mode = SPRITE_MASKED → mask.isSome = true) → k < 1024 → 5 ≤ k % 128 →
          drawBitmap F (-3) y (some bitmap) mask 8 h mode k = F k) := by
  have hvis : Visible (-3) (y : Int) 8 h := by
    rw [visible_iff]; omega
  refine ⟨by decide, by decide, ?_, ?_, ?_⟩
  · unfold bofsOf
    have e5 := startHOf_eq (y : Int) (by omega) (by omega)
    have e6 : xOffsetOf (-3) = 3 := by decide
    have e7 : startHOf (y : Int) = 0 := by omega
    rw [e6, e7]
  · intro c j hc hj
    obtain ⟨b1, b2⟩ := byte_index y j 0 c (by omega)
    unfold pixel srcBit WIDTH
    have e0 : (y + j) / 8 * 128 + c = (y + j) / 8 * 128 + (0 + c) := by omega
    rw [e0, drawBitmap_unmasked_bit F (-3) y bitmap none 8 h (by omega) (by norm_num) hvis _ _
      (by omega) (by omega)]
    unfold bitClip
    simp only []
    rw [b1, b2]
    have c1 : ((0 + c : Nat) : Int) - (-3) = ((c + 3 : Nat) : Int) := by push_cast; omega
    have c2 : 8 * (((y + j) / 8 : Nat) : Int) + (((y + j) % 8 : Nat) : Int) - (y : Int)
        = (j : Nat) := by omega
    rw [c1, c2, if_pos ⟨by omega, by omega, by omega, by omega, Or.inl (by trivial)⟩]
    unfold effUnmasked
    rw [Int.toNat_ofNat, Int.toNat_ofNat]
  · intro mode mask k _ hk hcol
    exact drawBitmap_outside_columns F (-3) y bitmap mask 8 h (by omega) (by norm_num) mode k hk
      (by omega)

theorem C2_left_clip_uses_columns_3_to_7_witness :
    (1 ≤ 8 ∧ 0 + 8 ≤ 64)
    ∧ (xOffsetOf (-3) = 3 ∧ renderedWidthOf (-3) 8 = 5 ∧ bofsOf (-3) ((0 : Nat) : Int) 8 = 3
      ∧ (∀ c j, c < 5 → j < 8 →
          pixel (drawBitmap blankBuffer (-3) (0 : Nat) (some (advance rampSprite 2)) none 8 8
            SPRITE_UNMASKED) c (0 + j)
            = srcBit (advance rampSprite 2) 8 (c + 3) j)
      ∧ (∀ (mode : DrawMode) (mask : Option Mem) (k : Nat),
          (mode = SPRITE_MASKED → mask.isSome = true) → k < 1024 → 5 ≤ k % 128 →
          drawBitmap blankBuffer (-3) (0 : Nat) (some (advance rampSprite 2)) mask 8 8 mode k
            = blankBuffer k)) :=
  ⟨by decide, C2_left_clip_uses_columns_3_to_7 blankBuffer (advance rampSprite 2) 0 8
    (by decide) (by decide)⟩

/-! ## Erasing after a self-masked draw -/

theorem pixel_index (px py : Nat) (hpx : px < 128) :
    (py / 8 * 128 + px) % 128 = px ∧ (py / 8 * 128 + px) / 128 = py / 8 := by
  omega

/-- C5, as stated, fails: with a mask whose bits are all 0 and a bitmap whose bits are all
1, the pixel `(0, 0)` of a blank framebuffer is set by `drawExternalMask` although its mask
bit is 0. -/
theorem C5_counterexample :
    srcBit emptyMask 8 0 0 = false
      ∧ pixel blankBuffer 0 0 = false
      ∧ pixel (drawExternalMask blankBuffer 0 0 (some solidSprite) (some emptyMask) 0 0) 0 0
          = true := by
  decide

/-- C5, amended: in ExternalMask mode (`drawExternalMask`), for every bitmap, mask, frame
indices, position and initial framebuffer, every framebuffer pixel whose corresponding mask
bit is 0 and whose corresponding bitmap bit is 0 (all pixels outside the footprint of the
sprite included) has the same value after the draw as before it.  The footprint is the
`w` columns by `8 * ceil(h / 8)` rows of the source page-rows; `(i, j)` are the sprite
coordinates of the pixel `(px, py)`. -/
theorem C5_external_mask_preserves_unmasked_bits (F res mask : Mem) (x y : Int) (f m : Nat)
    (px py : Nat) (hpx : px < 128) (hpy : py < 64)
    (hbits : ∀ i j : Nat, i < pgm_read_byte res 0 →
      j < 8 * ((pgm_read_byte res 1 + 7) / 8) → x + i = px → y + j = py →
      srcBit (advance mask (m * frameOffset (pgm_read_byte res 0) (pgm_read_byte res 1)))
          (pgm_read_byte res 0) i j = false
        ∧ srcBit (advance res (2 + f * frameOffset (pgm_read_byte res 0) (pgm_read_byte res 1)))
          (pgm_read_byte res 0) i j = false) :
    pixel (drawExternalMask F x y (some res) (some mask) f m) px py = pixel F px py := by
  unfold drawExternalMask
  rw [draw_eq F x y res f (some mask) m SPRITE_MASKED (by decide)]
  have hmode : resolveMode SPRITE_MASKED (some mask) = SPRITE_MASKED := rfl
  rw [hmode, Option.map_some']
  by_cases hvis : Visible x y (pgm_read_byte res 0) (pgm_read_byte res 1)
  · obtain ⟨b1, b2⟩ := pixel_index px py hpx
    unfold pixel WIDTH
    rw [drawBitmap_masked_bit F x y _ _ _ _ (pgm_read_byte_lt res 1) (pgm_read_byte_lt res 0)
      hvis _ _ (by omega) (by omega)]
    unfold bitClip
    simp only []
    rw [b1, b2]
    split_ifs with hc
    · obtain ⟨c1, c2, c3, c4, -⟩ := hc
      have hb := hbits ((px : Int) - x).toNat
        (8 * ((py / 8 : Nat) : Int) + ((py % 8 : Nat) : Int) - y).toNat
        (by omega) (by omega) (by omega) (by omega)
      unfold srcBit at hb
      unfold effMasked
      rw [hb.1, hb.2]
      simp
    · rfl
  · rw [drawBitmap_rejected F x y _ _ _ _ _ hvis]

theorem C5_external_mask_preserves_unmasked_bits_witness :
    ((4 : Nat) < 128 ∧ (11 : Nat) < 64
      ∧ ∀ i j : Nat, i < pgm_read_byte rampSprite 0 →
        j < 8 * ((pgm_read_byte rampSprite 1 + 7) / 8) → (4 : Int) + i = (4 : Nat) →
        (10 : Int) + j = (11 : Nat) →
        srcBit (advance emptyMask
            (0 * frameOffset (pgm_read_byte rampSprite 0) (pgm_read_byte rampSprite 1)))
            (pgm_read_byte rampSprite 0) i j = false
          ∧ srcBit (advance rampSprite
            (2 + 0 * frameOffset (pgm_read_byte rampSprite 0) (pgm_read_byte rampSprite 1)))
            (pgm_read_byte rampSprite 0) i j = false)
    ∧ pixel (drawExternalMask litBuffer 4 10 (some rampSprite) (some emptyMask) 0 0) 4 11
        = pixel litBuffer 4 11 :=
  have hb : ∀ i j : Nat, i < pgm_read_byte rampSprite 0 →
      j < 8 * ((pgm_read_byte rampSprite 1 + 7) / 8) → (4 : Int) + i = (4 : Nat) →
      (10 : Int) + j = (11 : Nat) →
      srcBit (advance emptyMask
          (0 * frameOffset (pgm_read_byte rampSprite 0) (pgm_read_byte rampSprite 1)))
          (pgm_read_byte rampSprite 0) i j = false
        ∧ srcBit (advance rampSprite
          (2 + 0 * frameOffset (pgm_read_byte rampSprite 0) (pgm_read_byte rampSprite 1)))
          (pgm_read_byte rampSprite 0) i j = false := by
    intro i j _ _ hi hj
    have i0 : i = 0 := by omega
    have j1 : j = 1 := by omega
    subst i0 j1
    decide
  ⟨⟨by decide, by decide, hb⟩,
    C5_external_mask_preserves_unmasked_bits litBuffer rampSprite emptyMask 4 10 0 0 4 11
      (by decide) (by decide) hb⟩

/-! ## C10 -/

/-- C10: with `WIDTH = 128`, `HEIGHT = 64` and an all-zero framebuffer, drawing the 8 by 8
bitmap whose eight pixel bytes are all `0xFF` at `(4, 10)` in Unmasked mode leaves the
framebuffer bytes `1 * 128 + c` equal to `0xFC` and the bytes `2 * 128 + c` equal to `0x03`
for every column `c` in 4..11, and every other framebuffer byte equal to 0. -/
theorem C10_solid_sprite_at_4_10 :
    (∀ c, 4 ≤ c → c ≤ 11 →
        drawOverwrite blankBuffer 4 10 (some solidSprite) 0 (1 * 128 + c) = 0xFC
          ∧ drawOverwrite blankBuffer 4 10 (some solidSprite) 0 (2 * 128 + c) = 0x03)
      ∧ (∀ k, k < 1024 → (∀ c, 4 ≤ c → c ≤ 11 → k ≠ 1 * 128 + c ∧ k ≠ 2 * 128 + c) →
        drawOverwrite blankBuffer 4 10 (some solidSprite) 0 k = 0) := by
  constructor
  · intro c h1 h2
    interval_cases c <;> decide
  · intro k hk hne
    have e0 : pgm_read_byte solidSprite 0 = 8 := by decide
    have e1 : pgm_read_byte solidSprite 1 = 8 := by decide
    have hvis : Visible 4 10 8 8 := by decide
    unfold drawOverwrite SPRITE_OVERWRITE
    rw [draw_frame_zero blankBuffer 4 10 solidSprite none _ (by decide), e0, e1,
      drawBitmap_unmasked_byte blankBuffer 4 10 _ none 8 8 (by norm_num) (by norm_num) hvis k hk]
    unfold byteClip
    simp only []
    have n1 : ¬ (0 ≤ ((k / 128 : Nat) : Int) - 10 / 8
        ∧ ((k / 128 : Nat) : Int) - 10 / 8 < (((8 + 7) / 8 : Nat) : Int))
        ∨ ¬ (0 ≤ ((k % 128 : Nat) : Int) - 4 ∧ ((k % 128 : Nat) : Int) - 4 < ((8 : Nat) : Int)) := by
      by_contra hcon
      push_neg at hcon
      have := hne (k % 128) (by omega) (by omega)
      omega
    have n2 : ¬ (1 ≤ ((k / 128 : Nat) : Int) - 10 / 8
        ∧ ((k / 128 : Nat) : Int) - 10 / 8 ≤ (((8 + 7) / 8 : Nat) : Int)
        ∧ (10 : Int) % 8 ≠ 0 ∧ (true = true ∨ 128 ≤ k))
        ∨ ¬ (0 ≤ ((k % 128 : Nat) : Int) - 4 ∧ ((k % 128 : Nat) : Int) - 4 < ((8 : Nat) : Int)) := by
      by_contra hcon
      push_neg at hcon
      have := hne (k % 128) (by omega) (by omega)
      omega
    split_ifs <;> first | rfl | (exfalso; tauto)

theorem C10_solid_sprite_at_4_10_witness :
    drawOverwrite blankBuffer 4 10 (some solidSprite) 0 (1 * 128 + 4) = 0xFC
      ∧ drawOverwrite blankBuffer 4 10 (some solidSprite) 0 (2 * 128 + 4) = 0x03 :=
  C10_solid_sprite_at_4_10.1 4 (by decide) (by decide)

/-! ## C16 -/

/-- C16: vertical alignment uses floor semantics without narrowing loss: for every `int16`
`y` and every `h` in 1..255 that pass the off-screen reject (`y + h > 0` and
`y ≤ HEIGHT - 1` with `HEIGHT = 64`), the 8-bit values computed by `drawBitmap` satisfy
`yOffset = y mod 8` in `[0, 7]` and, before the `start_h` adjustment, `sRow = floor(y / 8)`
(the truncated quotient `tempSRow` fits its `int8_t`), so that `y = 8 * sRow + yOffset`,
for negative `y` too. -/
theorem C16_vertical_alignment_floor (y : Int) (h : Nat)
    (hy1 : -32768 ≤ y) (hy2 : y ≤ 32767) (hh1 : 1 ≤ h) (hh2 : h ≤ 255)
    (hv1 : y + h > 0) (hv2 : y ≤ (HEIGHT : Int) - 1) :
    yOffsetOf y = y % 8 ∧ 0 ≤ yOffsetOf y ∧ yOffsetOf y ≤ 7
      ∧ tempSRowOf y = Int.tdiv y 8
      ∧ sRowInit y = Int.fdiv y 8
      ∧ y = 8 * sRowInit y + yOffsetOf y := by
  unfold HEIGHT at hv2
  push_cast at hv2
  have e1 := yOffsetOf_eq y
  have e2 := sRowInit_eq y (by omega) (by omega)
  have e3 : tempSRowOf y = Int.tdiv y 8 := by
    unfold tempSRowOf
    rw [tdiv_eight]
    unfold toI8
    split_ifs <;> omega
  refine ⟨e1, by omega, by omega, e3, ?_, by omega⟩
  rw [e2, Int.fdiv_eq_ediv y (by norm_num)]

theorem C16_vertical_alignment_floor_witness :
    ((-32768 : Int) ≤ -3 ∧ (-3 : Int) ≤ 32767 ∧ 1 ≤ 8 ∧ 8 ≤ 255 ∧ (-3 : Int) + (8 : Nat) > 0
      ∧ (-3 : Int) ≤ (HEIGHT : Int) - 1)
    ∧ (yOffsetOf (-3) = (-3) % 8 ∧ 0 ≤ yOffsetOf (-3) ∧ yOffsetOf (-3) ≤ 7
      ∧ tempSRowOf (-3) = Int.tdiv (-3) 8
      ∧ sRowInit (-3) = Int.fdiv (-3) 8
      ∧ (-3 : Int) = 8 * sRowInit (-3) + yOffsetOf (-3)) :=
  ⟨by decide, C16_vertical_alignment_floor (-3) 8 (by decide) (by decide) (by decide)
    (by decide) (by decide) (by decide)⟩

/-! ## C17 -/

/-- C17: horizontal clip: for every `int16` `x` and every `w` in 1..255 that pass the
off-screen reject (`x + w > 0` and `x ≤ WIDTH - 1` with `WIDTH = 128`), `drawBitmap`
computes `xOffset = max(0, -x)` and
`rendered_width = min(w - xOffset, WIDTH - x - xOffset)`; this `rendered_width` fits in 8
bits (the value is that minimum itself, below 256) and satisfies `1 ≤ rendered_width` and
`x + xOffset + rendered_width ≤ WIDTH`. -/
theorem C17_horizontal_clip (x : Int) (w : Nat)
    (hx1 : -32768 ≤ x) (hx2 : x ≤ 32767) (hw1 : 1 ≤ w) (hw2 : w ≤ 255)
    (hv1 : x + w > 0) (hv2 : x ≤ (WIDTH : Int) - 1) :
    (xOffsetOf x : Int) = max 0 (-x)
      ∧ (renderedWidthOf x w : Int)
          = min ((w : Int) - xOffsetOf x) ((WIDTH : Int) - x - xOffsetOf x)
      ∧ renderedWidthOf x w < 256
      ∧ 1 ≤ renderedWidthOf x w
      ∧ x + xOffsetOf x + renderedWidthOf x w ≤ (WIDTH : Int) := by
  unfold WIDTH at hv2 ⊢
  push_cast at hv2 ⊢
  have e1 := xOffsetOf_eq x (by omega)
  have e2 := renderedWidthOf_eq x w (by omega) (by omega) hv2
  refine ⟨e1, by omega, by omega, by omega, by omega⟩

theorem C17_horizontal_clip_witness :
    ((-32768 : Int) ≤ -3 ∧ (-3 : Int) ≤ 32767 ∧ 1 ≤ 8 ∧ 8 ≤ 255 ∧ (-3 : Int) + (8 : Nat) > 0
      ∧ (-3 : Int) ≤ (WIDTH : Int) - 1)
    ∧ ((xOffsetOf (-3) : Int) = max 0 (-(-3))
      ∧ (renderedWidthOf (-3) 8 : Int)
          = min (((8 : Nat) : Int) - xOffsetOf (-3)) ((WIDTH : Int) - (-3) - xOffsetOf (-3))
      ∧ renderedWidthOf (-3) 8 < 256
      ∧ 1 ≤ renderedWidthOf (-3) 8
      ∧ (-3 : Int) + xOffsetOf (-3) + renderedWidthOf (-3) 8 ≤ (WIDTH : Int)) :=
  ⟨by decide, C17_horizontal_clip (-3) 8 (by decide) (by decide) (by decide) (by decide)
    (by decide) (by decide)⟩

/-! ## C18 -/

theorem loopHClipped_eq (y : Int) (h : Nat) (hh : h < 256) (h1 : -256 ≤ y) (h2 : y ≤ 63) :
    (loopHClipped y h : Int) = min (((h + 7) / 8 : Nat) : Int) (8 - y / 8) := by
  unfold loopHClipped HEIGHT
  rw [sRowInit_eq y (by omega) (by omega), loopHInit_eq h hh]
  unfold toU8
  split_ifs <;> omega

/-- C18: vertical clip: for every `int16` `y` and `h` in 1..255 that pass the off-screen
reject (`HEIGHT = 64`), after the adjustments `loop_h -= start_h; sRow += start_h` the
unsigned subtraction does not wrap (`start_h ≤ loop_h` before it, and the results are the
exact difference and sum) and the values satisfy `start_h = max(0, -floor(y / 8) - 1)`,
`sRow ≥ -1`, `loop_h ≥ 1`, `start_h + loop_h ≤ ceil(h / 8)` and
`sRow + loop_h ≤ HEIGHT / 8`. -/
theorem C18_vertical_clip (y : Int) (h : Nat)
    (hy1 : -32768 ≤ y) (hy2 : y ≤ 32767) (hh1 : 1 ≤ h) (hh2 : h ≤ 255)
    (hv1 : y + h > 0) (hv2 : y ≤ (HEIGHT : Int) - 1) :
    startHOf y ≤ loopHClipped y h
      ∧ (loopHOf y h : Int) = (loopHClipped y h : Int) - startHOf y
      ∧ sRowOf y = sRowInit y + startHOf y
      ∧ (startHOf y : Int) = max 0 (-(y / 8) - 1)
      ∧ sRowOf y ≥ -1
      ∧ loopHOf y h ≥ 1
      ∧ startHOf y + loopHOf y h ≤ (h + 7) / 8
      ∧ sRowOf y + loopHOf y h ≤ ((HEIGHT / 8 : Nat) : Int) := by
  unfold HEIGHT at hv2 ⊢
  push_cast at hv2
  have e1 := sRowOf_eq y (by omega) (by omega)
  have e2 := loopHOf_eq y h (by omega) (by omega) hv2
  have e3 := startHOf_eq y (by omega) (by omega)
  have e4 := sRowInit_eq y (by omega) (by omega)
  have e5 := loopHClipped_eq y h (by omega) (by omega) hv2
  refine ⟨by omega, by omega, by omega, e3, by omega, by omega, by omega, by omega⟩

theorem C18_vertical_clip_witness :
    ((-32768 : Int) ≤ -19 ∧ (-19 : Int) ≤ 32767 ∧ 1 ≤ 100 ∧ 100 ≤ 255
      ∧ (-19 : Int) + (100 : Nat) > 0 ∧ (-19 : Int) ≤ (HEIGHT : Int) - 1)
    ∧ (startHOf (-19) ≤ loopHClipped (-19) 100
      ∧ (loopHOf (-19) 100 : Int) = (loopHClipped (-19) 100 : Int) - startHOf (-19)
      ∧ sRowOf (-19) = sRowInit (-19) + startHOf (-19)
      ∧ (startHOf (-19) : Int) = max 0 (-((-19) / 8) - 1)
      ∧ sRowOf (-19) ≥ -1
      ∧ loopHOf (-19) 100 ≥ 1
      ∧ startHOf (-19) + loopHOf (-19) 100 ≤ (100 + 7) / 8
      ∧ sRowOf (-19) + loopHOf (-19) 100 ≤ ((HEIGHT / 8 : Nat) : Int)) :=
  ⟨by decide, C18_vertical_clip (-19) 100 (by decide) (by decide) (by decide) (by decide)
    (by decide) (by decide)⟩

/-! ## Pixels of the closed form -/

/-- Inside the footprint, on a page reached by the stores, the closed form gives the
effect of the mode on the pixel. -/
theorem bitClip_pixel_inside (wrap : Bool) (e : Bool → Nat → Nat → Bool) (w h : Nat)
    (x y : Int) (F : Mem) (i j : Nat) (hi : i < w) (hj : j < 8 * ((h + 7) / 8))
    (hx0 : 0 ≤ x + i) (hx1 : x + i < 128) (hy0 : 0 ≤ y + j)
    (hwrap : wrap = true ∨ 128 ≤ (y + j).toNat / 8 * 128 + (x + i).toNat
      ∨ (y % 8).toNat ≤ (y + j).toNat % 8) :
    bitClip wrap e w h x y F ((y + j).toNat / 8 * 128 + (x + i).toNat) ((y + j).toNat % 8)
      = e ((F ((y + j).toNat / 8 * 128 + (x + i).toNat)).testBit ((y + j).toNat % 8))
          (j / 8 * w + i) (j % 8) := by
  obtain ⟨b1, b2⟩ := pixel_index (x + i).toNat (y + j).toNat (by omega)
  unfold bitClip
  simp only []
  rw [b1, b2]
  have c1 : (((x + i).toNat : Nat) : Int) - x = (i : Nat) := by omega
  have c2 : 8 * ((((y + j).toNat / 8 : Nat) : Nat) : Int) + ((((y + j).toNat % 8 : Nat) : Nat) : Int) - y
      = (j : Nat) := by omega
  rw [c1, c2, if_pos ⟨by omega, by omega, by omega, by omega, hwrap⟩, Int.toNat_ofNat,
    Int.toNat_ofNat]

/-- Outside the footprint the closed form gives the old pixel. -/
theorem bitClip_pixel_outside (wrap : Bool) (e : Bool → Nat → Nat → Bool) (w h : Nat)
    (x y : Int) (F : Mem) (px py : Nat) (hpx : px < 128)
    (hout : ¬ (x ≤ px ∧ (px : Int) < x + w ∧ y ≤ py
      ∧ (py : Int) < y + 8 * (((h + 7) / 8 : Nat) : Int))) :
    bitClip wrap e w h x y F (py / 8 * 128 + px) (py % 8)
      = (F (py / 8 * 128 + px)).testBit (py % 8) := by
  obtain ⟨b1, b2⟩ := pixel_index px py hpx
  unfold bitClip
  simp only []
  rw [b1, b2, if_neg]
  rintro ⟨c1, c2, c3, c4, -⟩
  apply hout
  refine ⟨by omega, by omega, by omega, by omega⟩

/-! ## C14 -/

/-- C14: clipping is transparent for Unmasked draws: with `WIDTH = 128`, `HEIGHT = 64`, for
every bitmap of width `w` and height `h` in 1..255, every position `(x, y)` in the `int16`
range that is not rejected as off-screen, and every initial framebuffer, after
`drawBitmap` in `SPRITE_UNMASKED` mode every on-screen pixel `(x + i, y + j)` with
`0 ≤ i < w`, `0 ≤ j < h`, `0 ≤ x + i < 128`, `0 ≤ y + j < 64` equals source bit `j mod 8`
of pixel-data byte `(j / 8) * w + i`. -/
theorem C14_unmasked_clipping_transparent (F bitmap : Mem) (mask : Option Mem) (x y : Int)
    (w h i j : Nat)
    (_hx1 : -32768 ≤ x) (_hx2 : x ≤ 32767) (_hy1 : -32768 ≤ y) (_hy2 : y ≤ 32767)
    (_hw1 : 1 ≤ w) (hw2 : w ≤ 255) (_hh1 : 1 ≤ h) (hh2 : h ≤ 255)
    (hvis : Visible x y w h) (hi : i < w) (hj : j < h)
    (hpx0 : 0 ≤ x + i) (hpx1 : x + i < 128) (hpy0 : 0 ≤ y + j) (hpy1 : y + j < 64) :
    pixel (drawBitmap F x y (some bitmap) mask w h SPRITE_UNMASKED) (x + i).toNat (y + j).toNat
      = srcBit bitmap w i j := by
  unfold pixel srcBit WIDTH
  rw [drawBitmap_unmasked_bit F x y bitmap mask w h (by omega) (by omega) hvis _ _
      (by omega) (by omega),
    bitClip_pixel_inside true _ w h x y F i j hi (by omega) hpx0 hpx1 hpy0 (Or.inl rfl)]
  rfl

theorem C14_unmasked_clipping_transparent_witness :
    ((-32768 : Int) ≤ -3 ∧ (-3 : Int) ≤ 32767 ∧ (-32768 : Int) ≤ -5 ∧ (-5 : Int) ≤ 32767
      ∧ 1 ≤ 8 ∧ 8 ≤ 255 ∧ 1 ≤ 8 ∧ 8 ≤ 255 ∧ Visible (-3) (-5) 8 8 ∧ 4 < 8 ∧ 6 < 8
      ∧ (0 : Int) ≤ -3 + (4 : Nat) ∧ (-3 : Int) + (4 : Nat) < 128
      ∧ (0 : Int) ≤ -5 + (6 : Nat) ∧ (-5 : Int) + (6 : Nat) < 64)
    ∧ pixel (drawBitmap litBuffer (-3) (-5) (some (advance rampSprite 2)) none 8 8
        SPRITE_UNMASKED) ((-3 : Int) + (4 : Nat)).toNat ((-5 : Int) + (6 : Nat)).toNat
      = srcBit (advance rampSprite 2) 8 4 6 :=
  ⟨by decide, C14_unmasked_clipping_transparent litBuffer (advance rampSprite 2) none (-3) (-5)
    8 8 4 6 (by decide) (by decide) (by decide) (by decide) (by decide) (by decide)
    (by decide) (by decide) (by decide) (by decide) (by decide) (by decide) (by decide)
    (by decide) (by decide)⟩

/-! ## C20 -/

/-- C20: footprint frame property: for every draw mode (the mask non-null in
`SPRITE_MASKED` mode), every bitmap and every position, each framebuffer pixel `(px, py)`
that lies outside the rectangle `[x, x + w) x [y, y + 8 * ceil(h / 8))` has the same value
after `drawBitmap` as before; so the bits of a touched page byte that fall above `y` or
below the last page-row of the sprite are preserved. -/
theorem C20_footprint_frame (F : Mem) (x y : Int) (bitmap mask : Option Mem) (w h : Nat)
    (hw : w ≤ 255) (hh : h ≤ 255) (mode : DrawMode)
    (hmask : mode = SPRITE_MASKED → mask.isSome = true)
    (px py : Nat) (hpx : px < 128) (hpy : py < 64)
    (hout : ¬ (x ≤ px ∧ (px : Int) < x + w ∧ y ≤ py
      ∧ (py : Int) < y + 8 * (((h + 7) / 8 : Nat) : Int))) :
    pixel (drawBitmap F x y bitmap mask w h mode) px py = pixel F px py := by
  by_cases hvis : Visible x y w h
  · cases bitmap with
    | none =>
      unfold drawBitmap
      rw [if_neg hvis]
    | some bm =>
      unfold pixel WIDTH
      cases mode with
      | SPRITE_MASKED =>
        cases mask with
        | none => simp at hmask
        | some m =>
          rw [drawBitmap_masked_bit F x y bm m w h (by omega) (by omega) hvis _ _ (by omega)
            (by omega)]
          exact bitClip_pixel_outside _ _ w h x y F px py hpx hout
      | SPRITE_UNMASKED =>
        rw [drawBitmap_unmasked_bit F x y bm mask w h (by omega) (by omega) hvis _ _ (by omega)
          (by omega)]
        exact bitClip_pixel_outside _ _ w h x y F px py hpx hout
      | SPRITE_PLUS_MASK => rw [drawBitmap_plus_mask]
      | SPRITE_IS_MASK =>
        rw [drawBitmap_isMask_bit F x y bm mask w h (by omega) (by omega) hvis _ _ (by omega)
          (by omega)]
        exact bitClip_pixel_outside _ _ w h x y F px py hpx hout
      | SPRITE_IS_MASK_ERASE =>
        rw [drawBitmap_isMaskErase_bit F x y bm mask w h (by omega) (by omega) hvis _ _
          (by omega) (by omega)]
        exact bitClip_pixel_outside _ _ w h x y F px py hpx hout
      | SPRITE_AUTO_MODE =>
        unfold drawBitmap
        rw [if_neg hvis]
  · rw [drawBitmap_rejected F x y _ mask w h mode hvis]

theorem C20_footprint_frame_witness :
    (8 ≤ 255 ∧ 5 ≤ 255 ∧ (SPRITE_UNMASKED = SPRITE_MASKED → (none : Option Mem).isSome = true)
      ∧ 4 < 128 ∧ 9 < 64
      ∧ ¬ ((4 : Int) ≤ (4 : Nat) ∧ ((4 : Nat) : Int) < 4 + (8 : Nat) ∧ (10 : Int) ≤ (9 : Nat)
        ∧ ((9 : Nat) : Int) < 10 + 8 * (((5 + 7) / 8 : Nat) : Int)))
    ∧ pixel (drawBitmap litBuffer 4 10 (some (advance rampSprite 2)) none 8 5
        SPRITE_UNMASKED) 4 9 = pixel litBuffer 4 9 :=
  ⟨by decide, C20_footprint_frame litBuffer 4 10 (some (advance rampSprite 2)) none 8 5
    (by decide) (by decide) SPRITE_UNMASKED (by decide) 4 9 (by decide) (by decide)
    (by decide)⟩

/-! ## C12 -/

/-- With a mask whose bytes are all `0xFF`, one pass of the `SPRITE_MASKED` body does to the
memory and to `sRow`, `ofs` and `bofs` what one pass of the `SPRITE_UNMASKED` body does. -/
theorem bodyMasked_fullMask (bitmap mask : Mem) (yo : Int) (mul_amt : Nat)
    (hmask : ∀ i, pgm_read_byte mask i = 0xFF) (s t : Cursor)
    (h : s.sBuffer = t.sBuffer ∧ s.sRow = t.sRow ∧ s.ofs = t.ofs ∧ s.bofs = t.bofs) :
    (bodyUnmasked bitmap yo mul_amt (not16 (0xFF * mul_amt)) s).sBuffer
        = (bodyMasked bitmap mask yo mul_amt t).sBuffer
      ∧ (bodyUnmasked bitmap yo mul_amt (not16 (0xFF * mul_amt)) s).sRow
        = (bodyMasked bitmap mask yo mul_amt t).sRow
      ∧ (bodyUnmasked bitmap yo mul_amt (not16 (0xFF * mul_amt)) s).ofs
        = (bodyMasked bitmap mask yo mul_amt t).ofs
      ∧ (bodyUnmasked bitmap yo mul_amt (not16 (0xFF * mul_amt)) s).bofs
        = (bodyMasked bitmap mask yo mul_amt t).bofs := by
  obtain ⟨h1, h2, h3, h4⟩ := h
  unfold bodyUnmasked bodyMasked
  refine ⟨?_, ?_, ?_, ?_⟩ <;> simp only [hmask, h1, h2, h3, h4]

theorem colLoop_fullMask (bitmap mask : Mem) (yo : Int) (mul_amt : Nat)
    (hmask : ∀ i, pgm_read_byte mask i = 0xFF) (n : Nat) (s t : Cursor)
    (h : s.sBuffer = t.sBuffer ∧ s.sRow = t.sRow ∧ s.ofs = t.ofs ∧ s.bofs = t.bofs) :
    (colLoop (bodyUnmasked bitmap yo mul_amt (not16 (0xFF * mul_amt))) n s).sBuffer
        = (colLoop (bodyMasked bitmap mask yo mul_amt) n t).sBuffer
      ∧ (colLoop (bodyUnmasked bitmap yo mul_amt (not16 (0xFF * mul_amt))) n s).sRow
        = (colLoop (bodyMasked bitmap mask yo mul_amt) n t).sRow
      ∧ (colLoop (bodyUnmasked bitmap yo mul_amt (not16 (0xFF * mul_amt))) n s).ofs
        = (colLoop (bodyMasked bitmap mask yo mul_amt) n t).ofs
      ∧ (colLoop (bodyUnmasked bitmap yo mul_amt (not16 (0xFF * mul_amt))) n s).bofs
        = (colLoop (bodyMasked bitmap mask yo mul_amt) n t).bofs := by
  induction n generalizing s t with
  | zero => exact h
  | succ n ih =>
    exact ih _ _ (bodyMasked_fullMask bitmap mask yo mul_amt hmask s t h)

theorem rowEnd_fullMask (w rw : Nat) (s t : Cursor)
    (h : s.sBuffer = t.sBuffer ∧ s.sRow = t.sRow ∧ s.ofs = t.ofs ∧ s.bofs = t.bofs) :
    (rowEnd w rw s).sBuffer = (rowEndMasked w rw t).sBuffer
      ∧ (rowEnd w rw s).sRow = (rowEndMasked w rw t).sRow
      ∧ (rowEnd w rw s).ofs = (rowEndMasked w rw t).ofs
      ∧ (rowEnd w rw s).bofs = (rowEndMasked w rw t).bofs := by
  obtain ⟨h1, h2, h3, h4⟩ := h
  unfold rowEnd rowEndMasked
  refine ⟨?_, ?_, ?_, ?_⟩ <;> simp only [h1, h2, h3, h4]

theorem rowLoop_fullMask (bitmap mask : Mem) (yo : Int) (mul_amt w rw : Nat)
    (hmask : ∀ i, pgm_read_byte mask i = 0xFF) (n : Nat) (s t : Cursor)
    (h : s.sBuffer = t.sBuffer ∧ s.sRow = t.sRow ∧ s.ofs = t.ofs ∧ s.bofs = t.bofs) :
    (rowLoop (bodyUnmasked bitmap yo mul_amt (not16 (0xFF * mul_amt))) (rowEnd w rw) rw n
        s).sBuffer
      = (rowLoop (bodyMasked bitmap mask yo mul_amt) (rowEndMasked w rw) rw n t).sBuffer := by
  induction n generalizing s t with
  | zero => exact h.1
  | succ n ih =>
    exact ih _ _ (rowEnd_fullMask w rw _ _
      (colLoop_fullMask bitmap mask yo mul_amt hmask rw s t h))

/-- C12: Unmasked mode is ExternalMask mode with an all-ones mask: for every bitmap,
position and initial framebuffer, `drawBitmap` in `SPRITE_UNMASKED` mode produces the same
memory at `sBuffer`, the framebuffer included, as `drawBitmap` in `SPRITE_MASKED` mode
given a mask whose bytes are all `0xFF`. -/
theorem C12_unmasked_is_masked_with_full_mask (F : Mem) (x y : Int) (bitmap : Option Mem)
    (mask0 : Option Mem) (mask : Mem) (w h : Nat)
    (hmask : ∀ i, pgm_read_byte mask i = 0xFF) :
    drawBitmap F x y bitmap mask0 w h SPRITE_UNMASKED
      = drawBitmap F x y bitmap (some mask) w h SPRITE_MASKED := by
  unfold drawBitmap
  split_ifs
  · rfl
  · cases bitmap with
    | none => rfl
    | some bm =>
      exact rowLoop_fullMask bm mask _ _ _ _ hmask _ _ _ ⟨rfl, rfl, rfl, rfl⟩

theorem C12_unmasked_is_masked_with_full_mask_witness :
    (∀ i, pgm_read_byte fullMask i = 0xFF)
    ∧ drawBitmap litBuffer (-3) 10 (some (advance rampSprite 2)) none 8 8 SPRITE_UNMASKED
      = drawBitmap litBuffer (-3) 10 (some (advance rampSprite 2)) (some fullMask) 8 8
          SPRITE_MASKED :=
  ⟨fun _ => rfl, C12_unmasked_is_masked_with_full_mask litBuffer (-3) 10
    (some (advance rampSprite 2)) none fullMask 8 8 (fun _ => rfl)⟩

/-! ## C11 -/

theorem loUnmasked_lt (bitmap : Mem) (mul_amt mask_data b d : Nat) :
    loUnmasked bitmap mul_amt mask_data b d < 256 := by
  unfold loUnmasked
  have h1 : d &&& lowByte mask_data < 2 ^ 8 :=
    Nat.and_lt_two_pow d (by simpa using lowByte_lt mask_data)
  have h2 : lowByte (toU16 ((pgm_read_byte bitmap b * mul_amt : Nat) : Int)) < 2 ^ 8 := by
    simpa using lowByte_lt _
  simpa using Nat.or_lt_two_pow h1 h2

/-- Bit `t` of the word read back from two stacked page bytes `lo` and `hi`, shifted right
by `yo` and cut to a byte. -/
theorem testBit_readBack (hi lo yo t : Nat) (hlo : lo < 256) :
    ((((hi <<< 8) ||| lo) >>> yo) &&& 0xFF).testBit t
      = (decide (t < 8)
          && (if yo + t < 8 then lo.testBit (yo + t) else hi.testBit (yo + t - 8))) := by
  rw [Nat.testBit_and, testBit_255, Nat.testBit_shiftRight, Nat.testBit_lor,
    Nat.testBit_shiftLeft, Bool.and_comm]
  by_cases h8 : yo + t < 8
  · have : ¬ (yo + t ≥ 8) := by omega
    simp [h8, this]
  · have h8' : yo + t ≥ 8 := by omega
    simp [h8, h8', testBit_byte_high lo (yo + t) hlo h8']

/-- C11: round trip of the bit-splitting: for every `yOffset` in 0..7, every page `p` with
`0 ≤ p < 7`, every in-bounds column range (`x + w ≤ WIDTH`) and every initial framebuffer,
after an Unmasked draw of an 8-pixel-high sprite at `y = 8 * p + yOffset`, for each sprite
column `i` the value
`(((fb[(p + 1) * WIDTH + x + i] << 8) | fb[p * WIDTH + x + i]) >> yOffset) & 0xFF` is the
source byte of column `i`. -/
theorem C11_bit_split_round_trip (F bitmap : Mem) (mask : Option Mem) (x w p yo i : Nat)
    (hyo : yo ≤ 7) (hp : p < 7) (hxw : x + w ≤ WIDTH) (hw : w ≤ 255) (hi : i < w) :
    ((((drawBitmap F x ((8 * p + yo : Nat) : Int) (some bitmap) mask w 8 SPRITE_UNMASKED
          ((p + 1) * WIDTH + (x + i))) <<< 8)
        ||| drawBitmap F x ((8 * p + yo : Nat) : Int) (some bitmap) mask w 8 SPRITE_UNMASKED
          (p * WIDTH + (x + i))) >>> yo) &&& 0xFF
      = pgm_read_byte bitmap i := by
  unfold WIDTH at hxw ⊢
  have hvis : Visible (x : Int) ((8 * p + yo : Nat) : Int) w 8 := by
    rw [visible_iff]; omega
  -- the low page byte was stored by the draw, so it is a byte
  have hlo : drawBitmap F x ((8 * p + yo : Nat) : Int) (some bitmap) mask w 8 SPRITE_UNMASKED
      (p * 128 + (x + i)) < 256 := by
    rw [drawBitmap_unmasked_byte F x _ bitmap mask w 8 (by norm_num) (by omega) hvis _
      (by omega)]
    unfold byteClip
    simp only []
    rw [if_pos (by omega), if_pos (by omega)]
    exact loUnmasked_lt _ _ _ _ _
  apply Nat.eq_of_testBit_eq
  intro t
  rw [testBit_readBack _ _ yo t hlo]
  by_cases ht : t < 8
  · have e0 : (8 * p + yo : Nat) = 8 * p + yo := rfl
    by_cases h8 : yo + t < 8
    · rw [if_pos h8, drawBitmap_unmasked_bit F x _ bitmap mask w 8 (by norm_num) (by omega) hvis
        _ _ (by omega) (by omega)]
      have k1 : p * 128 + (x + i)
          = ((((8 * p + yo : Nat) : Int) + (t : Nat)).toNat / 8) * 128
            + (((x : Int) + (i : Nat)).toNat) := by omega
      have k2 : yo + t = (((8 * p + yo : Nat) : Int) + (t : Nat)).toNat % 8 := by omega
      rw [k1, k2, bitClip_pixel_inside true _ w 8 x _ F i t hi (by omega) (by omega) (by omega)
        (by omega) (Or.inl rfl)]
      unfold effUnmasked
      have j0 : t / 8 * w + i = i := by
        have : t / 8 = 0 := by omega
        rw [this]; omega
      have j1 : t % 8 = t := by omega
      rw [j0, j1]
      simp [ht]
    · rw [if_neg h8, drawBitmap_unmasked_bit F x _ bitmap mask w 8 (by norm_num) (by omega) hvis
        _ _ (by omega) (by omega)]
      have k1 : (p + 1) * 128 + (x + i)
          = ((((8 * p + yo : Nat) : Int) + (t : Nat)).toNat / 8) * 128
            + (((x : Int) + (i : Nat)).toNat) := by omega
      have k2 : yo + t - 8 = (((8 * p + yo : Nat) : Int) + (t : Nat)).toNat % 8 := by omega
      rw [k1, k2, bitClip_pixel_inside true _ w 8 x _ F i t hi (by omega) (by omega) (by omega)
        (by omega) (Or.inl rfl)]
      unfold effUnmasked
      have j0 : t / 8 * w + i = i := by
        have : t / 8 = 0 := by omega
        rw [this]; omega
      have j1 : t % 8 = t := by omega
      rw [j0, j1]
      simp [ht]
  · have : (pgm_read_byte bitmap i).testBit t = false :=
      testBit_byte_high _ t (pgm_read_byte_lt bitmap i) (by omega)
    simp [ht, this]

theorem C11_bit_split_round_trip_witness :
    (3 ≤ 7 ∧ 1 < 7 ∧ 4 + 8 ≤ WIDTH ∧ 8 ≤ 255 ∧ 2 < 8)
    ∧ ((((drawBitmap litBuffer (4 : Nat) ((8 * 1 + 3 : Nat) : Int)
          (some (advance rampSprite 2)) none 8 8 SPRITE_UNMASKED
          ((1 + 1) * WIDTH + (4 + 2))) <<< 8)
        ||| drawBitmap litBuffer (4 : Nat) ((8 * 1 + 3 : Nat) : Int)
          (some (advance rampSprite 2)) none 8 8 SPRITE_UNMASKED
          (1 * WIDTH + (4 + 2))) >>> 3) &&& 0xFF
      = pgm_read_byte (advance rampSprite 2) 2 :=
  ⟨by decide, C11_bit_split_round_trip litBuffer (advance rampSprite 2) none 4 8 1 3 2
    (by decide) (by decide) (by decide) (by decide) (by decide)⟩

/-! ## The cursors the loops visit -/

theorem mem_colVisited (body : Cursor → Cursor) (n : Nat) (s t : Cursor)
    (h : t ∈ colVisited body n s) : ∃ c, c < n ∧ t = colLoop body c s := by
  induction n generalizing s with
  | zero => simp [colVisited] at h
  | succ n ih =>
    unfold colVisited at h
    rcases List.mem_cons.mp h with h | h
    · exact ⟨0, by omega, h⟩
    · obtain ⟨c, hc, e⟩ := ih (body s) h
      exact ⟨c + 1, by omega, e⟩

theorem mem_rowVisited (body rowEnd : Cursor → Cursor) (rw n : Nat) (s t : Cursor)
    (h : t ∈ rowVisited body rowEnd rw n s) :
    ∃ a c, a < n ∧ c < rw ∧ t = colLoop body c (rowLoop body rowEnd rw a s) := by
  induction n generalizing s with
  | zero => simp [rowVisited] at h
  | succ n ih =>
    unfold rowVisited at h
    rcases List.mem_append.mp h with h | h
    · obtain ⟨c, hc, e⟩ := mem_colVisited body rw s t h
      exact ⟨0, c, by omega, hc, e⟩
    · obtain ⟨a, c, ha, hc, e⟩ := ih _ h
      exact ⟨a + 1, c, by omega, hc, e⟩

/-- Closed form of the loop variables at each pass of the inner body of a draw of the
common shape: pass `c` of row `a`. -/
theorem rowVisited_gen (yo : Int) (wrap : Bool) (dm : Nat) (fLo fHi : Nat → Nat → Nat → Nat)
    (w rw L : Nat) (s t : Cursor) (hs : s.ofs < 65536) (hlow : -128 ≤ s.sRow)
    (hhigh : s.sRow + L ≤ 127)
    (h : t ∈ rowVisited (bodyGen yo wrap dm fLo fHi) (rowEndGen dm w rw) rw L s) :
    ∃ a c, a < L ∧ c < rw ∧ t.sRow = s.sRow + a
      ∧ t.ofs = ((s.ofs + a * 128) % 65536 + c) % 65536
      ∧ t.bofs = s.bofs + a * w + c
      ∧ t.mask_ofs = s.mask_ofs + dm * (a * w) + dm * c := by
  obtain ⟨a, c, ha, hc, e⟩ := mem_rowVisited _ _ rw L s t h
  obtain ⟨r1, r2, r3, r4⟩ := rowLoop_gen_cursor yo wrap dm fLo fHi w rw s hs hlow a (by omega)
  obtain ⟨c1, c2, c3, c4⟩ := colLoop_gen_cursor yo wrap dm fLo fHi
    (rowLoop (bodyGen yo wrap dm fLo fHi) (rowEndGen dm w rw) rw a s) (by rw [r2]; omega) c
  refine ⟨a, c, ha, hc, ?_, ?_, ?_, ?_⟩
  · rw [e, c1, r1]
  · rw [e, c2, r2]
  · rw [e, c3, r3]
  · rw [e, c4, r4]

/-- The cursors visited by a draw that is not rejected, in the four modes that draw: pass
`c` of row `a` is on page `sRow + a`, at the framebuffer index of that page and of column
`x + xOffset + c` (modulo `2 ^ 16`), and reads the source index
`(start_h + a) * w + xOffset + c`. -/
theorem drawBitmapVisited_spec (F : Mem) (x y : Int) (bitmap : Mem) (mask : Option Mem)
    (w h : Nat) (hh : h < 256) (hw : w < 256) (hvis : Visible x y w h) (mode : DrawMode)
    (t : Cursor) (ht : t ∈ drawBitmapVisited F x y (some bitmap) mask w h mode) :
    ∃ a c, a < loopHOf y h ∧ c < renderedWidthOf x w
      ∧ t.sRow = sRowOf y + a
      ∧ t.ofs = toU16 ((sRowOf y + a) * 128 + (startCol x + c : Nat))
      ∧ t.bofs = (startHOf y + a) * w + (xOffsetOf x + c)
      ∧ (mode = SPRITE_MASKED → t.mask_ofs = (startHOf y + a) * w + (xOffsetOf x + c)) := by
  obtain ⟨g1, g2, g3, g4⟩ := clip_geometry x y w h hh hw hvis
  have hs : ofsOf x y < 65536 := by rw [g4]; unfold toU16; omega
  have key : ∀ (yo : Int) (wrap : Bool) (dm : Nat) (fLo fHi : Nat → Nat → Nat → Nat),
      t ∈ rowVisited (bodyGen yo wrap dm fLo fHi) (rowEndGen dm w (renderedWidthOf x w))
        (renderedWidthOf x w) (loopHOf y h)
        { sBuffer := F, sRow := sRowOf y, ofs := ofsOf x y, bofs := bofsOf x y w,
          mask_ofs := bofsOf x y w } →
      ∃ a c, a < loopHOf y h ∧ c < renderedWidthOf x w
        ∧ t.sRow = sRowOf y + a
        ∧ t.ofs = toU16 ((sRowOf y + a) * 128 + (startCol x + c : Nat))
        ∧ t.bofs = (startHOf y + a) * w + (xOffsetOf x + c)
        ∧ (dm = 1 → t.mask_ofs = (startHOf y + a) * w + (xOffsetOf x + c)) := by
    intro yo wrap dm fLo fHi hmem
    obtain ⟨a, c, ha, hc, e1, e2, e3, e4⟩ := rowVisited_gen yo wrap dm fLo fHi w
      (renderedWidthOf x w) (loopHOf y h) _ t hs (by show -128 ≤ sRowOf y; omega)
      (by show sRowOf y + (loopHOf y h : Int) ≤ 127; omega) hmem
    refine ⟨a, c, ha, hc, e1, ?_, ?_, ?_⟩
    · rw [e2]
      show ((ofsOf x y + a * 128) % 65536 + c) % 65536 = _
      rw [g4]
      unfold toU16
      push_cast
      omega
    · rw [e3]
      show bofsOf x y w + a * w + c = _
      unfold bofsOf
      rw [Nat.add_mul]
      omega
    · intro hdm
      rw [e4, hdm]
      show bofsOf x y w + 1 * (a * w) + 1 * c = _
      unfold bofsOf
      rw [Nat.add_mul]
      omega
  unfold drawBitmapVisited at ht
  rw [if_neg hvis] at ht
  simp only [] at ht
  cases mode with
  | SPRITE_MASKED =>
    cases mask with
    | none => simp at ht
    | some m =>
      simp only [] at ht
      rw [bodyMasked_eq, rowEndMasked_eq] at ht
      obtain ⟨a, c, h1, h2, h3, h4, h5, h6⟩ := key _ _ _ _ _ ht
      exact ⟨a, c, h1, h2, h3, h4, h5, fun _ => h6 rfl⟩
  | SPRITE_UNMASKED =>
    simp only [] at ht
    rw [bodyUnmasked_eq, rowEnd_eq] at ht
    obtain ⟨a, c, h1, h2, h3, h4, h5, -⟩ := key _ _ _ _ _ ht
    exact ⟨a, c, h1, h2, h3, h4, h5, fun hm => by cases hm⟩
  | SPRITE_PLUS_MASK => simp at ht
  | SPRITE_IS_MASK =>
    simp only [] at ht
    rw [bodyIsMask_eq, rowEnd_eq] at ht
    obtain ⟨a, c, h1, h2, h3, h4, h5, -⟩ := key _ _ _ _ _ ht
    exact ⟨a, c, h1, h2, h3, h4, h5, fun hm => by cases hm⟩
  | SPRITE_IS_MASK_ERASE =>
    simp only [] at ht
    rw [bodyIsMaskErase_eq, rowEnd_eq] at ht
    obtain ⟨a, c, h1, h2, h3, h4, h5, -⟩ := key _ _ _ _ _ ht
    exact ⟨a, c, h1, h2, h3, h4, h5, fun hm => by cases hm⟩
  | SPRITE_AUTO_MODE => simp at ht

/-! ## C19 -/

theorem source_index_lt (r c w R rw xo st L : Nat) (hr : r < st + L) (hR : st + L ≤ R)
    (hc : c < xo + rw) (hw : xo + rw ≤ w) : r * w + c < w * R := by
  have h1 : r * w + c < (r + 1) * w := by rw [Nat.add_mul]; omega
  have h2 : (r + 1) * w ≤ R * w := Nat.mul_le_mul_right w (by omega)
  rw [Nat.mul_comm w R]
  omega

/-- C19: source bounds safety: for every draw that is not rejected (in the modes
`SPRITE_UNMASKED`, `SPRITE_IS_MASK`, `SPRITE_IS_MASK_ERASE` and `SPRITE_MASKED`; the other
modes read nothing), every byte `drawBitmap` reads from the bitmap and, in `SPRITE_MASKED`
mode, from the mask lies at an index `r * w + c` with `start_h ≤ r < start_h + loop_h` and
`xOffset ≤ c < xOffset + rendered_width`, which is in `[0, w * ceil(h / 8))`: no byte past
the frame is read. -/
theorem C19_source_reads_in_frame (F : Mem) (x y : Int) (bitmap : Mem) (mask : Option Mem)
    (w h : Nat) (mode : DrawMode) (_hw1 : 1 ≤ w) (hw2 : w ≤ 255) (_hh1 : 1 ≤ h)
    (hh2 : h ≤ 255) (hvis : Visible x y w h) (idx : Nat)
    (hidx : idx ∈ bitmapReads F x y (some bitmap) mask w h mode
      ∨ idx ∈ maskReads F x y (some bitmap) mask w h mode) :
    (∃ r c, idx = r * w + c ∧ startHOf y ≤ r ∧ r < startHOf y + loopHOf y h
        ∧ xOffsetOf x ≤ c ∧ c < xOffsetOf x + renderedWidthOf x w)
      ∧ idx < w * ((h + 7) / 8) := by
  have hv := (visible_iff x y w h).mp hvis
  have e1 := xOffsetOf_eq x (by omega)
  have e2 := renderedWidthOf_eq x w (by omega) hv.1 hv.2.1
  have e3 := loopHOf_eq y h (by omega) hv.2.2.1 hv.2.2.2
  have e4 := startHOf_eq y (by omega) (by omega)
  have hcol : xOffsetOf x + renderedWidthOf x w ≤ w := by omega
  have hrow : startHOf y + loopHOf y h ≤ (h + 7) / 8 := by omega
  have main : ∀ t, t ∈ drawBitmapVisited F x y (some bitmap) mask w h mode →
      ∀ i, (i = t.bofs ∨ (mode = SPRITE_MASKED ∧ i = t.mask_ofs)) →
      (∃ r c, i = r * w + c ∧ startHOf y ≤ r ∧ r < startHOf y + loopHOf y h
          ∧ xOffsetOf x ≤ c ∧ c < xOffsetOf x + renderedWidthOf x w)
        ∧ i < w * ((h + 7) / 8) := by
    intro t ht i hi
    obtain ⟨a, c, ha, hc, -, -, s3, s4⟩ :=
      drawBitmapVisited_spec F x y bitmap mask w h (by omega) (by omega) hvis mode t ht
    have ei : i = (startHOf y + a) * w + (xOffsetOf x + c) := by
      rcases hi with hi | ⟨hm, hi⟩
      · rw [hi, s3]
      · rw [hi, s4 hm]
    refine ⟨⟨startHOf y + a, xOffsetOf x + c, ei, by omega, by omega, by omega, by omega⟩, ?_⟩
    rw [ei]
    exact source_index_lt _ _ w _ _ _ _ _ (by omega) hrow (by omega) hcol
  rcases hidx with hidx | hidx
  · unfold bitmapReads at hidx
    obtain ⟨t, ht, e⟩ := List.mem_map.mp hidx
    exact main t ht idx (Or.inl e.symm)
  · unfold maskReads at hidx
    by_cases hm : mode = SPRITE_MASKED
    · rw [if_pos hm] at hidx
      obtain ⟨t, ht, e⟩ := List.mem_map.mp hidx
      exact main t ht idx (Or.inr ⟨hm, e.symm⟩)
    · rw [if_neg hm] at hidx
      simp at hidx

theorem C19_source_reads_in_frame_witness :
    (1 ≤ 8 ∧ 8 ≤ 255 ∧ 1 ≤ 8 ∧ 8 ≤ 255 ∧ Visible (-3) 10 8 8
      ∧ (7 ∈ bitmapReads blankBuffer (-3) 10 (some (advance rampSprite 2)) (some emptyMask)
            8 8 SPRITE_MASKED
          ∨ 7 ∈ maskReads blankBuffer (-3) 10 (some (advance rampSprite 2)) (some emptyMask)
            8 8 SPRITE_MASKED))
    ∧ ((∃ r c, 7 = r * 8 + c ∧ startHOf 10 ≤ r ∧ r < startHOf 10 + loopHOf 10 8
        ∧ xOffsetOf (-3) ≤ c ∧ c < xOffsetOf (-3) + renderedWidthOf (-3) 8)
      ∧ 7 < 8 * ((8 + 7) / 8)) :=
  ⟨⟨by decide, by decide, by decide, by decide, by decide, Or.inl (by decide)⟩,
    C19_source_reads_in_frame blankBuffer (-3) 10 (advance rampSprite 2) (some emptyMask) 8 8
      SPRITE_MASKED (by decide) (by decide) (by decide) (by decide) (by decide) 7
      (Or.inl (by decide))⟩

/-! ## C15 -/

/-- Destination bounds safety where it holds: in every mode but `SPRITE_IS_MASK`, and in
`SPRITE_IS_MASK` too when `y ≥ 0` or `y` is a multiple of 8, every index of `sBuffer` that
a draw which is not rejected reads or writes is below `WIDTH * HEIGHT / 8 = 1024`. -/
theorem drawBitmapAccesses_lt (F : Mem) (x y : Int) (bitmap : Mem) (mask : Option Mem)
    (w h : Nat) (mode : DrawMode) (hw : w ≤ 255) (hh : h ≤ 255) (hvis : Visible x y w h)
    (hsafe : mode ≠ SPRITE_IS_MASK ∨ 0 ≤ y ∨ y % 8 = 0) (idx : Nat)
    (hidx : idx ∈ drawBitmapAccesses F x y (some bitmap) mask w h mode) :
    idx < 1024 := by
  unfold drawBitmapAccesses at hidx
  obtain ⟨t, ht, hacc⟩ := List.mem_flatMap.mp hidx
  obtain ⟨a, c, ha, hc, s1, s2, -, -⟩ :=
    drawBitmapVisited_spec F x y bitmap mask w h (by omega) (by omega) hvis mode t ht
  obtain ⟨g1, g2, g3, -⟩ := clip_geometry x y w h (by omega) (by omega) hvis
  have hv := (visible_iff x y w h).mp hvis
  have e1 := sRowOf_eq y (by omega) (by omega)
  unfold bufferAccesses at hacc
  rw [yOffsetOf_eq] at hacc
  unfold toU16 at s2
  rcases List.mem_append.mp hacc with hlo | hhi
  · by_cases c0 : t.sRow ≥ 0
    · rw [if_pos c0] at hlo
      have : idx = t.ofs := by simpa using hlo
      push_cast at s2
      omega
    · rw [if_neg c0] at hlo
      simp at hlo
  · by_cases c1 : y % 8 ≠ 0 ∧ t.sRow < 7
    · rw [if_pos c1] at hhi
      by_cases hm : mode = SPRITE_IS_MASK
      · rw [if_pos hm] at hhi
        have e : idx = t.ofs + WIDTH := by simpa using hhi
        unfold WIDTH at e
        have hy : 0 ≤ y := by
          rcases hsafe with h1 | h1 | h1
          · exact absurd hm h1
          · exact h1
          · exact absurd h1 c1.1
        push_cast at s2
        omega
      · rw [if_neg hm] at hhi
        have e : idx = toU16 ((t.ofs + WIDTH : Nat) : Int) := by simpa using hhi
        unfold toU16 WIDTH at e
        push_cast at s2 e
        omega
    · rw [if_neg c1] at hhi
      simp at hhi

/-- C15, failing input: `drawBitmap` in `SPRITE_IS_MASK` mode of an 8 by 8 sprite at
`(4, -3)`.  The draw is not rejected; its high-byte store uses the index
`ofs + WIDTH = 65412 + 128 = 65540`, which is not below `WIDTH * HEIGHT / 8 = 1024`, and
the memory cell 65540 past the framebuffer is changed from 0 to 31. -/
theorem C15_is_mask_index_out_of_bounds :
    Visible 4 (-3) 8 8
      ∧ 65540 ∈ drawBitmapAccesses blankBuffer 4 (-3) (some (advance solidSprite 2)) none 8 8
          SPRITE_IS_MASK
      ∧ ¬ (65540 < WIDTH * HEIGHT / 8)
      ∧ blankBuffer 65540 = 0
      ∧ drawBitmap blankBuffer 4 (-3) (some (advance solidSprite 2)) none 8 8 SPRITE_IS_MASK
          65540 = 31 := by
  decide

/-! ## C13 -/

/-- C13, failing input: `drawSelfMasked` of the solid 8 by 8 sprite at `(4, -3)` on a blank
framebuffer.  Framebuffer byte 4 (page 0, column 4) stays 0, while the Unmasked draw of the
same sprite at the same position on a blank framebuffer gives 31 there, so that
`F[4] | S[4] = 31`: the high byte of the shifted source byte does not land in the
framebuffer. -/
theorem C13_self_masked_misses_top_page :
    drawSelfMasked blankBuffer 4 (-3) (some solidSprite) 0 4 = 0
      ∧ drawOverwrite blankBuffer 4 (-3) (some solidSprite) 0 4 = 31
      ∧ (blankBuffer 4 ||| drawOverwrite blankBuffer 4 (-3) (some solidSprite) 0 4) = 31
      ∧ drawSelfMasked blankBuffer 4 (-3) (some solidSprite) 0 65540 = 31 := by
  decide

/-! ## SelfMask as an OR of the Unmasked image, away from the top edge -/

/-- A draw whose byte compositions OR in what a second draw composes on a zero byte
gives the old byte ORed with the byte the second draw gives on a blank framebuffer. -/
theorem byteClip_or (wO wU : Bool) (gLoO gHiO gLoU gHiU : Nat → Nat → Nat) (w h : Nat)
    (x y : Int) (F : Mem) (k : Nat)
    (hwU : wU = true) (hwO : wO = true ∨ 0 ≤ y ∨ y % 8 = 0)
    (hA : ∀ i d, gLoO i d = d ||| gLoU i 0)
    (hB : ∀ i d, gHiO i d = d ||| gHiU i 0)
    (hC : ∀ i1 i2 d, gLoO i1 (gHiO i2 d) = d ||| gLoU i1 (gHiU i2 0)) :
    byteClip wO gLoO gHiO w h x y F k
      = F k ||| byteClip wU gLoU gHiU w h x y blankBuffer k := by
  have hz : blankBuffer k = 0 := rfl
  unfold byteClip
  simp only []
  by_cases hcol : 0 ≤ ((k % 128 : Nat) : Int) - x ∧ ((k % 128 : Nat) : Int) - x < w
  · rw [if_pos hcol, if_pos hcol, hz]
    by_cases hhi : 1 ≤ ((k / 128 : Nat) : Int) - y / 8
        ∧ ((k / 128 : Nat) : Int) - y / 8 ≤ (((h + 7) / 8 : Nat) : Int)
        ∧ y % 8 ≠ 0 ∧ (wU = true ∨ 128 ≤ k)
    · have hhi' : 1 ≤ ((k / 128 : Nat) : Int) - y / 8
          ∧ ((k / 128 : Nat) : Int) - y / 8 ≤ (((h + 7) / 8 : Nat) : Int)
          ∧ y % 8 ≠ 0 ∧ (wO = true ∨ 128 ≤ k) := by
        refine ⟨hhi.1, hhi.2.1, hhi.2.2.1, ?_⟩
        rcases hwO with h1 | h1 | h1
        · exact Or.inl h1
        · exact Or.inr (by omega)
        · exact absurd h1 hhi.2.2.1
      rw [if_pos hhi, if_pos hhi']
      by_cases hlo : 0 ≤ ((k / 128 : Nat) : Int) - y / 8
          ∧ ((k / 128 : Nat) : Int) - y / 8 < (((h + 7) / 8 : Nat) : Int)
      · rw [if_pos hlo, if_pos hlo, hC]
      · rw [if_neg hlo, if_neg hlo, hB]
    · have hhi' : ¬ (1 ≤ ((k / 128 : Nat) : Int) - y / 8
          ∧ ((k / 128 : Nat) : Int) - y / 8 ≤ (((h + 7) / 8 : Nat) : Int)
          ∧ y % 8 ≠ 0 ∧ (wO = true ∨ 128 ≤ k)) := by
        intro hh
        exact hhi ⟨hh.1, hh.2.1, hh.2.2.1, Or.inl hwU⟩
      rw [if_neg hhi, if_neg hhi']
      by_cases hlo : 0 ≤ ((k / 128 : Nat) : Int) - y / 8
          ∧ ((k / 128 : Nat) : Int) - y / 8 < (((h + 7) / 8 : Nat) : Int)
      · rw [if_pos hlo, if_pos hlo, hA]
      · rw [if_neg hlo, if_neg hlo, Nat.or_zero]
  · rw [if_neg hcol, if_neg hcol, hz, Nat.or_zero]

theorem isMask_or_unmasked_two (bitmap : Mem) (y : Int) (i1 i2 d : Nat) :
    loIsMask bitmap (mulAmtOf y) i1 (hiIsMask bitmap (mulAmtOf y) i2 d)
      = d ||| loUnmasked bitmap (mulAmtOf y) (not16 (0xFF * mulAmtOf y)) i1
          (hiUnmasked bitmap (mulAmtOf y) (not16 (0xFF * mulAmtOf y)) i2 0) := by
  unfold loIsMask hiIsMask loUnmasked hiUnmasked
  rw [mulAmtOf_eq]
  apply Nat.eq_of_testBit_eq
  intro t
  simp only [Nat.testBit_lor, Nat.testBit_land, Nat.zero_testBit, Bool.false_and,
    Bool.false_or]
  by_cases ht : t < 8
  · rw [testBit_highShift _ _ _ (pgm_read_byte_lt _ _) (yo_lt y) ht,
      testBit_lowNotShift _ _ _ (by norm_num) (yo_lt y) ht, testBit_255]
    by_cases h : t < (y % 8).toNat
    · have h' : ¬ ((y % 8).toNat ≤ t) := by omega
      simp [h, h', Bool.or_assoc]
    · simp [h]
  · have e1 := testBit_byte_high _ t
      (highByte_lt (toU16 ((pgm_read_byte bitmap i2 * 2 ^ (y % 8).toNat : Nat) : Int)))
      (by omega)
    rw [e1]
    simp

/-- On the framebuffer, for a position with `y ≥ 0` or `y` a multiple of 8, `drawSelfMasked`
gives `F[k] | S[k]`, where `S` is the `drawOverwrite` image of the same sprite at the same
position on a blank framebuffer. -/
theorem drawSelfMasked_or_unmasked (F : Mem) (x y : Int) (bitmap : Option Mem) (frame : Nat)
    (hy : 0 ≤ y ∨ y % 8 = 0) (k : Nat) (hk : k < 1024) :
    drawSelfMasked F x y bitmap frame k
      = F k ||| drawOverwrite blankBuffer x y bitmap frame k := by
  cases bitmap with
  | none =>
    show F k = F k ||| 0
    rw [Nat.or_zero]
  | some res =>
    unfold drawSelfMasked drawOverwrite SPRITE_OVERWRITE
    rw [draw_eq F x y res frame none 0 SPRITE_IS_MASK (by decide),
      draw_eq blankBuffer x y res frame none 0 SPRITE_UNMASKED (by decide)]
    have hm1 : resolveMode SPRITE_IS_MASK none = SPRITE_IS_MASK := rfl
    have hm2 : resolveMode SPRITE_UNMASKED none = SPRITE_UNMASKED := rfl
    rw [hm1, hm2]
    by_cases hvis : Visible x y (pgm_read_byte res 0) (pgm_read_byte res 1)
    · rw [drawBitmap_isMask_byte F x y _ _ _ _ (pgm_read_byte_lt res 1)
          (pgm_read_byte_lt res 0) hvis k hk,
        drawBitmap_unmasked_byte blankBuffer x y _ _ _ _ (pgm_read_byte_lt res 1)
          (pgm_read_byte_lt res 0) hvis k hk]
      apply byteClip_or false true _ _ _ _ _ _ x y F k rfl (Or.inr hy)
      · intro i d
        unfold loIsMask loUnmasked
        rw [Nat.zero_and, Nat.zero_or]
      · intro i d
        unfold hiIsMask hiUnmasked
        rw [Nat.zero_and, Nat.zero_or]
      · intro i1 i2 d
        exact isMask_or_unmasked_two _ y i1 i2 d
    · rw [drawBitmap_rejected F x y _ _ _ _ _ hvis,
        drawBitmap_rejected blankBuffer x y _ _ _ _ _ hvis]
      show F k = F k ||| 0
      rw [Nat.or_zero]

end Sprites
